import Mathlib

/-!
Verification of the airport-diagram tracker's extraction and change
detection engine (`backend/pdf_extractor.py`, `backend/comparator.py`).

Python strings are modelled as lists of Unicode code points (`PyStr`);
`str.upper`, `str.strip`, `str.isdigit` are modelled with their ASCII
semantics, which is what the data handled by this program contains.
Python floats are modelled as rationals, and the comparison
`sqrt(dx^2 + dy^2) < t` is modelled as `dx^2 + dy^2 < t^2`, which is
equivalent for nonnegative `t`.  Python's `re` module is modelled by a
small backtracking engine (`reOutcomes`) over a regex syntax tree; the
engine enumerates match alternatives in the same preference order as
Python's (greedy repetitions try longer matches first, scanning is
leftmost-first).
-/

attribute [local semireducible] Rat.add Rat.sub Rat.mul Rat.inv

/-- Python strings as lists of Unicode code points. -/
abbrev PyStr := List Nat

/-- Code points of a Lean string literal, used to write concrete
Python strings. -/
def pyOfString (s : String) : PyStr := s.data.map Char.toNat

/-- `'0' <= c <= '9'`, the ASCII reading of Python's `str.isdigit` and
of the regex class `\d`. -/
def isDigitN (n : Nat) : Bool := 48 ≤ n && n ≤ 57

/-- ASCII whitespace, the ASCII reading of Python's `str.strip` default
set and of the regex class `\s`. -/
def isSpaceN (n : Nat) : Bool := n = 32 || n = 9 || n = 10 || n = 11 || n = 12 || n = 13

/-- One character of Python's `str.upper`, ASCII semantics. -/
def upperCh (n : Nat) : Nat := if 97 ≤ n ∧ n ≤ 122 then n - 32 else n

/-- Python `str.upper`, ASCII semantics. -/
def pyUpper (s : PyStr) : PyStr := s.map upperCh

/-- Python `str.strip()` with no argument, ASCII whitespace. -/
def pyStrip (s : PyStr) : PyStr :=
  ((s.dropWhile isSpaceN).reverse.dropWhile isSpaceN).reverse

/-- Decimal value of a digit string, as built by Python's `int`. -/
def decVal (s : PyStr) : Nat := s.foldl (fun a d => 10 * a + (d - 48)) 0

/-- Decimal rendering of a natural number, digit code points. -/
def natToStr (n : Nat) : PyStr :=
  (Nat.toDigits 10 n).map Char.toNat

/-- Decimal rendering of an integer, as Python prints it. -/
def intToStr (i : Int) : PyStr :=
  if i < 0 then 45 :: natToStr i.natAbs else natToStr i.natAbs

/-- Python `str.split(sep)` for a one-character separator: the result
always has one more part than there are separators. -/
def splitOnChar (sep : Nat) : PyStr → List PyStr
  | [] => [[]]
  | c :: cs =>
      match splitOnChar sep cs with
      | [] => [[]]
      | h :: t => if c = sep then [] :: h :: t else (c :: h) :: t

/-! ### A backtracking regular-expression engine

Syntax covers exactly what the modelled patterns use: character
classes, concatenation, greedy counted repetition (`{lo,hi}`, `?`, `*`)
and capture groups. -/

/-- Regular-expression syntax tree. -/
inductive RE where
  | cls (p : Nat → Bool)
  | cat (r1 r2 : RE)
  | rep (lo : Nat) (hi : Option Nat) (r : RE)
  | grp (id : Nat) (r : RE)

/-- Captured groups of one match: group id paired with captured text. -/
abbrev Caps := List (Nat × PyStr)

/-- Greedy repetition of a body matcher `f`, driven by fuel.  An
iteration must consume at least one character; every repeated body in
the modelled patterns always consumes, so this matches Python. -/
def repOutcomes (f : PyStr → List (Caps × PyStr)) (lo : Nat) (hi : Option Nat) :
    Nat → PyStr → List (Caps × PyStr)
  | 0, s => if lo = 0 then [([], s)] else []
  | fuel + 1, s =>
      let go :=
        if hi = some 0 then []
        else
          (f s).flatMap fun o =>
            if o.2.length < s.length then
              (repOutcomes f (lo - 1) (hi.map (· - 1)) fuel o.2).map
                fun o2 => (o.1 ++ o2.1, o2.2)
            else []
      go ++ (if lo = 0 then [([], s)] else [])

/-- All ways the pattern can match a prefix of `s`, in the
backtracking preference order of Python's `re` (greedy repetitions try
longer matches first).  Each outcome is (captured groups, remaining
suffix of `s`). -/
def reOutcomes : RE → PyStr → List (Caps × PyStr)
  | .cls _, [] => []
  | .cls p, c :: rest => if p c then [([], rest)] else []
  | .cat r1 r2, s =>
      (reOutcomes r1 s).flatMap fun o1 =>
        (reOutcomes r2 o1.2).map fun o2 => (o1.1 ++ o2.1, o2.2)
  | .rep lo hi r, s => repOutcomes (reOutcomes r) lo hi (s.length + 1) s
  | .grp id r, s =>
      (reOutcomes r s).map fun o =>
        ((id, s.take (s.length - o.2.length)) :: o.1, o.2)

/-- Python `pattern.match(s)` for a pattern anchored with `$`: some
alternative consumes the whole string. -/
def reFullmatch (r : RE) (s : PyStr) : Bool :=
  (reOutcomes r s).any fun o => o.2.isEmpty

/-- The preferred match of `r` at the start of `s`: captured groups
and the number of characters consumed. -/
def reMatchAt (r : RE) (s : PyStr) : Option (Caps × Nat) :=
  (reOutcomes r s).head?.map fun o => (o.1, s.length - o.2.length)

/-- One match found by scanning: the whole matched text (`group(0)`)
and the captured groups. -/
structure ReMatch where
  whole : PyStr
  caps : Caps
  deriving DecidableEq

/-- Group lookup, Python `match.group(i)`. -/
def capGet (m : ReMatch) (id : Nat) : PyStr := (m.caps.lookup id).getD []

/-- Python `pattern.finditer(s)`: repeatedly find the leftmost match,
then continue after it.  Every modelled pattern matches at least one
character, so empty matches never arise. -/
def reFinditerAux (r : RE) : Nat → PyStr → List ReMatch
  | 0, _ => []
  | fuel + 1, s =>
      match reMatchAt r s with
      | some (caps, len) =>
          if len = 0 then []
          else ⟨s.take len, caps⟩ :: reFinditerAux r fuel (s.drop len)
      | none =>
          match s with
          | [] => []
          | _ :: t => reFinditerAux r fuel t

def reFinditer (r : RE) (s : PyStr) : List ReMatch :=
  reFinditerAux r (s.length + 1) s

/-! ### Model of `backend/pdf_extractor.py` -/

/-- Letters A-Z excluding I (73) and O (79): the class `[A-HJ-NP-Z]`. -/
def isRestrictedLetter (n : Nat) : Bool :=
  (65 ≤ n && n ≤ 90) && n ≠ 73 && n ≠ 79

/-- The class `[A-Z]`. -/
def isUpperLetter (n : Nat) : Bool := 65 ≤ n && n ≤ 90

/-- The class `[LCR]`. -/
def isLCR (n : Nat) : Bool := n = 76 || n = 67 || n = 82

/-- The class `[Xx]`. -/
def isXx (n : Nat) : Bool := n = 88 || n = 120

/-- The class matching a dash or a slash. -/
def isDashSlash (n : Nat) : Bool := n = 45 || n = 47

/-- A class matching one literal character. -/
def chCls (n : Nat) : RE := .cls (fun c => c = n)

/-- `TAXIWAY_PATTERN = ^[A-HJ-NP-Z]{1,2}[A-Z]?$` (the `$` anchor is
applied by using `reFullmatch`). -/
def TAXIWAY_PATTERN : RE :=
  .cat (.rep 1 (some 2) (.cls isRestrictedLetter))
       (.rep 0 (some 1) (.cls isUpperLetter))

/-- `DIMENSION_PATTERN = (\d{4,5})\s*[Xx]\s*(\d{2,3})`. -/
def DIMENSION_PATTERN : RE :=
  .cat (.grp 1 (.rep 4 (some 5) (.cls isDigitN)))
    (.cat (.rep 0 none (.cls isSpaceN))
      (.cat (.cls isXx)
        (.cat (.rep 0 none (.cls isSpaceN))
          (.grp 2 (.rep 2 (some 3) (.cls isDigitN))))))

/-- One runway end with optional suffix: `\d{1,2}[LCR]?`. -/
def rwyEnd : RE :=
  .cat (.rep 1 (some 2) (.cls isDigitN)) (.rep 0 (some 1) (.cls isLCR))

/-- `RUNWAY_FULL_PATTERN`: two runway ends joined by a dash-or-slash,
whitespace, then dimensions, with the ends and both dimension numbers
captured (groups 1-4). -/
def RUNWAY_FULL_PATTERN : RE :=
  .cat (.grp 1 rwyEnd)
    (.cat (.rep 0 none (.cls isSpaceN))
      (.cat (.cls isDashSlash)
        (.cat (.rep 0 none (.cls isSpaceN))
          (.cat (.grp 2 rwyEnd)
            (.cat (.rep 1 none (.cls isSpaceN))
              (.cat (.grp 3 (.rep 4 (some 5) (.cls isDigitN)))
                (.cat (.rep 0 none (.cls isSpaceN))
                  (.cat (.cls isXx)
                    (.cat (.rep 0 none (.cls isSpaceN))
                      (.grp 4 (.rep 2 (some 3) (.cls isDigitN))))))))))))

/-- A designator pair: a runway end, a dash-or-slash, a runway end;
used inside the `RWYS?` marker pattern (uncaptured there). -/
def rwyPair : RE :=
  .cat rwyEnd (.cat (.cls isDashSlash) rwyEnd)

/-- The marker pattern of `extract_runway_info` method 2: the literal
`RWY` with optional `S`, whitespace, then a captured comma-separated
list of designator pairs (group 1). -/
def RWY_LIST_PATTERN : RE :=
  .cat (chCls 82)
    (.cat (chCls 87)
      (.cat (chCls 89)
        (.cat (.rep 0 (some 1) (chCls 83))
          (.cat (.rep 1 none (.cls isSpaceN))
            (.grp 1
              (.cat rwyPair
                (.rep 0 none
                  (.cat (.rep 0 none (.cls isSpaceN))
                    (.cat (chCls 44)
                      (.cat (.rep 0 none (.cls isSpaceN)) rwyPair))))))))))

/-- The pair pattern used with `re.findall` on the captured list:
two captured runway ends joined by a dash-or-slash. -/
def PAIR_PATTERN : RE :=
  .cat (.grp 1 rwyEnd) (.cat (.cls isDashSlash) (.grp 2 rwyEnd))

/-- The fixed excluded-token set of `is_valid_taxiway_designator`. -/
def false_positives : List PyStr :=
  [pyOfString "TWY", pyOfString "RWY", pyOfString "TWR", pyOfString "GND",
   pyOfString "DEL", pyOfString "APP", pyOfString "DEP",
   pyOfString "NOT", pyOfString "FOR", pyOfString "USE", pyOfString "THE",
   pyOfString "AND", pyOfString "FEB", pyOfString "JAN",
   pyOfString "MAR", pyOfString "APR", pyOfString "MAY", pyOfString "JUN",
   pyOfString "JUL", pyOfString "AUG", pyOfString "SEP",
   pyOfString "OCT", pyOfString "NOV", pyOfString "DEC", pyOfString "FAA",
   pyOfString "USA", pyOfString "NYC", pyOfString "LAX"]

/-- `is_valid_taxiway_designator` from `pdf_extractor.py`. -/
def is_valid_taxiway_designator (text : PyStr) : Bool :=
  let t := pyUpper (pyStrip text)
  if false_positives.contains t then false
  else if !(reFullmatch TAXIWAY_PATTERN t) then false
  else if t.length = 1 then true
  else if t.length = 2 then true
  else false

/-- `extract_diagram_bounds`: interior bounds from page width/height
(12% side margins, 10% top, 8% bottom). -/
def extract_diagram_bounds (width height : Rat) : Rat × Rat × Rat × Rat :=
  let margin_x := width * (12 / 100)
  let margin_top := height * (10 / 100)
  let margin_bottom := height * (8 / 100)
  (margin_x, margin_top, width - margin_x, height - margin_bottom)

/-- One positioned text span, as handed over by the document parser. -/
structure TextSpan where
  text : PyStr
  bbox0 : Rat
  bbox1 : Rat
  bbox2 : Rat
  bbox3 : Rat
  size : Rat
  deriving DecidableEq

/-- Whether a span's center lies strictly inside the given bounds
(the first filter of the span loop in `extract_taxiway_labels`). -/
def spanCenterInBounds (bounds : Rat × Rat × Rat × Rat) (span : TextSpan) : Prop :=
  let x_center := (span.bbox0 + span.bbox2) / 2
  let y_center := (span.bbox1 + span.bbox3) / 2
  bounds.1 < x_center ∧ x_center < bounds.2.2.1 ∧
  bounds.2.1 < y_center ∧ y_center < bounds.2.2.2

instance (bounds : Rat × Rat × Rat × Rat) (span : TextSpan) :
    Decidable (spanCenterInBounds bounds span) := by
  unfold spanCenterInBounds; infer_instance

/-- The per-span acceptance decision of the loop body of
`extract_taxiway_labels`: the span is kept as a taxiway label exactly
when this holds (the separate rounded-position deduplication of that
loop compares a span against previously accepted ones and is not part
of the per-span decision modelled here). -/
def span_accepted (bounds : Rat × Rat × Rat × Rat) (span : TextSpan) : Bool :=
  let text := pyUpper (pyStrip span.text)
  if ¬ spanCenterInBounds bounds span then false
  else if span.size < 4 ∨ span.size > 10 then false
  else is_valid_taxiway_designator text

/-- A runway record extracted from the page
(`RunwayInfo` in `pdf_extractor.py`). -/
structure RunwayInfo where
  designator : PyStr
  length_ft : Nat
  width_ft : Nat
  x : Rat
  y : Rat
  surface : PyStr
  raw_text : PyStr
  deriving DecidableEq

/-- One document page as `extract_runway_info` sees it: the flat page
text (`page.get_text()`) plus the per-line span structure of the text
dictionary (`page.get_text('dict')`; blocks without lines contribute
nothing, so the lines of all blocks are given directly). -/
structure RunwayPage where
  fullText : PyStr
  lines : List (List TextSpan)

/-- Insert a key into the dimension-position map only if absent
(`if dim_key not in dimension_positions`). -/
def posInsertIfAbsent (m : List ((Nat × Nat) × (Rat × Rat))) (k : Nat × Nat)
    (v : Rat × Rat) : List ((Nat × Nat) × (Rat × Rat)) :=
  if (m.lookup k).isSome then m else m ++ [(k, v)]

/-- Minimum of a head element and a list (Python `min` over a
nonempty list given head and tail). -/
def listMin (x : Rat) (xs : List Rat) : Rat := xs.foldl min x

/-- Maximum of a head element and a list. -/
def listMax (x : Rat) (xs : List Rat) : Rat := xs.foldl max x

/-- The dimension-position entries contributed by one line: for every
dimension match in the concatenated line text whose length is at least
2000, the center of the whole line's bounding box, keyed by the
(length, width) pair, first occurrence winning. -/
def linePositions (m : List ((Nat × Nat) × (Rat × Rat))) (line : List TextSpan) :
    List ((Nat × Nat) × (Rat × Rat)) :=
  let line_text : PyStr := (line.map TextSpan.text).flatten
  (reFinditer DIMENSION_PATTERN line_text).foldl
    (fun m mt =>
      let length := decVal (capGet mt 1)
      let width := decVal (capGet mt 2)
      if 2000 ≤ length then
        match line with
        | [] => m
        | sp :: rest =>
            let x0 := listMin sp.bbox0 (rest.map TextSpan.bbox0)
            let y0 := listMin sp.bbox1 (rest.map TextSpan.bbox1)
            let x1 := listMax sp.bbox2 (rest.map TextSpan.bbox2)
            let y1 := listMax sp.bbox3 (rest.map TextSpan.bbox3)
            posInsertIfAbsent m (length, width) ((x0 + x1) / 2, (y0 + y1) / 2)
      else m)
    m

/-- The map from (length, width) dimension pairs to the page position
of the line showing them, built before the three extraction tiers. -/
def dimensionPositions (lines : List (List TextSpan)) :
    List ((Nat × Nat) × (Rat × Rat)) :=
  lines.foldl linePositions []

/-- Method 1 of `extract_runway_info`: one record per match of the
combined designator-plus-dimensions pattern in the page text. -/
def method1Runways (full_text : PyStr)
    (dimension_positions : List ((Nat × Nat) × (Rat × Rat))) : List RunwayInfo :=
  (reFinditer RUNWAY_FULL_PATTERN full_text).map fun mt =>
    let length_int := decVal (capGet mt 3)
    let width_int := decVal (capGet mt 4)
    let pos := (dimension_positions.lookup (length_int, width_int)).getD (0, 0)
    { designator := capGet mt 1 ++ 47 :: capGet mt 2
      length_ft := length_int
      width_ft := width_int
      x := pos.1
      y := pos.2
      surface := []
      raw_text := mt.whole }

/-- Append a designator if it is not already present
(`if designator not in all_designators`). -/
def dedupAppend (l : List PyStr) (d : PyStr) : List PyStr :=
  if l.contains d then l else l ++ [d]

/-- Method 2, part (a): the ordered, deduplicated list of designator
pairs found after `RWY`-or-`RWYS` markers in the page text. -/
def allRwyDesignators (full_text : PyStr) : List PyStr :=
  (reFinditer RWY_LIST_PATTERN full_text).foldl
    (fun acc mt =>
      (reFinditer PAIR_PATTERN (capGet mt 1)).foldl
        (fun acc pm => dedupAppend acc (capGet pm 1 ++ 47 :: capGet pm 2))
        acc)
    []

/-- Method 2, part (b): the ordered list of dimension pairs in the
page text with length at least 2000, each with its mapped position. -/
def allLargeDimensions (full_text : PyStr)
    (dimension_positions : List ((Nat × Nat) × (Rat × Rat))) :
    List (Nat × Nat × Rat × Rat) :=
  (reFinditer DIMENSION_PATTERN full_text).filterMap fun mt =>
    let length := decVal (capGet mt 1)
    let width := decVal (capGet mt 2)
    if 2000 ≤ length then
      let pos := (dimension_positions.lookup (length, width)).getD (0, 0)
      some (length, width, pos.1, pos.2)
    else none

/-- The record built by pairing a designator with a dimension tuple in
method 2 (`raw_text` is the formatted "designator: length x width"). -/
def pairedRecord (designator : PyStr) (t : Nat × Nat × Rat × Rat) : RunwayInfo :=
  { designator := designator
    length_ft := t.1
    width_ft := t.2.1
    x := t.2.2.1
    y := t.2.2.2
    surface := []
    raw_text := designator ++ pyOfString ": " ++ natToStr t.1 ++
      pyOfString " x " ++ natToStr t.2.1 }

/-- The record built for a leftover dimension in method 2: designator
is the sentinel "Unknown". -/
def unknownPairedRecord (t : Nat × Nat × Rat × Rat) : RunwayInfo :=
  { designator := pyOfString "Unknown"
    length_ft := t.1
    width_ft := t.2.1
    x := t.2.2.1
    y := t.2.2.2
    surface := []
    raw_text := pyOfString "Unknown: " ++ natToStr t.1 ++
      pyOfString " x " ++ natToStr t.2.1 }

/-- Method 2 of `extract_runway_info`: the i-th designator is paired
with the i-th dimension (the loop over `enumerate(all_designators)`
guarded by `i < len(all_dimensions)`), then every dimension index from
`len(all_designators)` to the end yields an "Unknown" record. -/
def method2Runways (full_text : PyStr)
    (dimension_positions : List ((Nat × Nat) × (Rat × Rat))) : List RunwayInfo :=
  let all_designators := allRwyDesignators full_text
  let all_dimensions := allLargeDimensions full_text dimension_positions
  all_designators.enum.filterMap
    (fun p => (all_dimensions.get? p.1).map (pairedRecord p.2)) ++
  ((List.range all_dimensions.length).drop all_designators.length).filterMap
    (fun i => (all_dimensions.get? i).map unknownPairedRecord)

/-- Method 3 of `extract_runway_info`: every dimension match with
length at least 2000 becomes an "Unknown" record (`raw_text` is the
matched text itself here). -/
def method3Runways (full_text : PyStr)
    (dimension_positions : List ((Nat × Nat) × (Rat × Rat))) : List RunwayInfo :=
  (reFinditer DIMENSION_PATTERN full_text).filterMap fun mt =>
    let length := decVal (capGet mt 1)
    let width := decVal (capGet mt 2)
    if 2000 ≤ length then
      let pos := (dimension_positions.lookup (length, width)).getD (0, 0)
      some { designator := pyOfString "Unknown"
             length_ft := length
             width_ft := width
             x := pos.1
             y := pos.2
             surface := []
             raw_text := mt.whole }
    else none

/-- `extract_runway_info` from `pdf_extractor.py`: the runway records
and the raw-text debugging list.  The tiers are tried in order; a
later tier runs only if the record list is still empty. -/
def extract_runway_info (page : RunwayPage) : List RunwayInfo × List PyStr :=
  let full_text := page.fullText
  let raw_text := [full_text.take 1500]
  let dimension_positions := dimensionPositions page.lines
  let runways := method1Runways full_text dimension_positions
  let runways :=
    if runways.isEmpty then method2Runways full_text dimension_positions
    else runways
  let runways :=
    if runways.isEmpty then method3Runways full_text dimension_positions
    else runways
  (runways, raw_text)

/-! ### Model of `backend/comparator.py`

The comparator reads snapshot dictionaries; the fields it accesses are
modelled as structure fields (`MissingOptionalField` defaults of the
snapshot format are absorbed by the fields being total). -/

/-- A taxiway label as the comparator reads it (`label['designator']`,
`label['x']`, `label['y']`; the stored bbox is never read there). -/
structure TaxiwayLabel where
  designator : PyStr
  x : Rat
  y : Rat
  deriving DecidableEq

/-- A runway entry as the comparator reads it (via `.get` with
defaults). -/
structure RunwayData where
  designator : PyStr
  length_ft : Int
  width_ft : Int
  x : Rat
  y : Rat
  deriving DecidableEq

/-- A vector path segment; the geometry comparison only counts them. -/
structure PathSegment where
  x0 : Rat
  y0 : Rat
  x1 : Rat
  y1 : Rat
  width : Rat
  deriving DecidableEq

/-- `TaxiwayChange` from `comparator.py`. -/
structure TaxiwayChange where
  change_type : PyStr
  designator : PyStr
  old_designator : PyStr
  x : Rat
  y : Rat
  description : PyStr
  deriving DecidableEq

/-- `RunwayChange` from `comparator.py`. -/
structure RunwayChange where
  change_type : PyStr
  designator : PyStr
  old_length : Int
  new_length : Int
  old_width : Int
  new_width : Int
  old_x : Rat
  old_y : Rat
  new_x : Rat
  new_y : Rat
  description : PyStr
  deriving DecidableEq

/-- `GeometryChange` from `comparator.py`. -/
structure GeometryChange where
  change_type : PyStr
  x : Rat
  y : Rat
  description : PyStr
  deriving DecidableEq

/-- `LOCATION_THRESHOLD = 15.0`. -/
def LOCATION_THRESHOLD : Rat := 15

/-- Squared Euclidean distance; `distance(..) < t` in the source is
modelled as `distanceSq .. < t^2`, equivalent for the fixed positive
threshold. -/
def distanceSq (x1 y1 x2 y2 : Rat) : Rat :=
  (x2 - x1) ^ 2 + (y2 - y1) ^ 2

/-- `find_nearby_labels` with the default threshold: all labels whose
position is within Euclidean distance strictly less than 15. -/
def find_nearby_labels (label : TaxiwayLabel) (labels : List TaxiwayLabel) :
    List TaxiwayLabel :=
  labels.filter fun other =>
    distanceSq label.x label.y other.x other.y < LOCATION_THRESHOLD ^ 2

/-- First-occurrence deduplication, used to model iteration over a
Python set built from a list (set iteration order is unspecified in
Python; only membership matters to the stated properties). -/
def dedupFirstAux : List PyStr → List PyStr → List PyStr
  | [], _ => []
  | x :: xs, seen =>
      if seen.contains x then dedupFirstAux xs seen
      else x :: dedupFirstAux xs (x :: seen)

def dedupFirst (l : List PyStr) : List PyStr := dedupFirstAux l []

/-- The designator set of a label list
(`{label['designator'] for label in labels}`). -/
def designatorSet (labels : List TaxiwayLabel) : List PyStr :=
  dedupFirst (labels.map TaxiwayLabel.designator)

/-- ASCII apostrophe, used in the human-readable descriptions. -/
def apos : Nat := 39

/-- The ADDED record for a designator only in the new set, using the
first label carrying it. -/
def taxiwayAddedChange (d : PyStr) (lab : TaxiwayLabel) : TaxiwayChange :=
  { change_type := pyOfString "ADDED"
    designator := d
    old_designator := []
    x := lab.x
    y := lab.y
    description := pyOfString "New taxiway " ++ apos :: d ++
      apos :: pyOfString " added" }

/-- The REMOVED record for a designator only in the old set. -/
def taxiwayRemovedChange (d : PyStr) (lab : TaxiwayLabel) : TaxiwayChange :=
  { change_type := pyOfString "REMOVED"
    designator := d
    old_designator := d
    x := lab.x
    y := lab.y
    description := pyOfString "Taxiway " ++ apos :: d ++
      apos :: pyOfString " removed" }

/-- The RENAMED record for an old/new label pair at the same spot. -/
def taxiwayRenamedChange (old_label new_label : TaxiwayLabel) : TaxiwayChange :=
  { change_type := pyOfString "RENAMED"
    designator := new_label.designator
    old_designator := old_label.designator
    x := new_label.x
    y := new_label.y
    description := pyOfString "Taxiway renamed from " ++
      apos :: old_label.designator ++ apos :: pyOfString " to " ++
      apos :: new_label.designator ++ [apos] }

/-- The ADDED loop of `compare_taxiway_labels`: one record per
designator in the new set but not the old set, positioned at the first
occurrence in the new list (the inner loop with `break`). -/
def addedTaxiwayChanges (old_labels new_labels : List TaxiwayLabel) :
    List TaxiwayChange :=
  ((designatorSet new_labels).filter fun d =>
      !((designatorSet old_labels).contains d)).filterMap fun d =>
    (new_labels.find? fun lab => lab.designator == d).map (taxiwayAddedChange d)

/-- The REMOVED loop of `compare_taxiway_labels`. -/
def removedTaxiwayChanges (old_labels new_labels : List TaxiwayLabel) :
    List TaxiwayChange :=
  ((designatorSet old_labels).filter fun d =>
      !((designatorSet new_labels).contains d)).filterMap fun d =>
    (old_labels.find? fun lab => lab.designator == d).map (taxiwayRemovedChange d)

/-- The RENAMED loop of `compare_taxiway_labels`: every old/new label
pair within the location threshold whose designators differ and do not
survive on either side. -/
def renamedTaxiwayChanges (old_labels new_labels : List TaxiwayLabel) :
    List TaxiwayChange :=
  old_labels.flatMap fun old_label =>
    (find_nearby_labels old_label new_labels).filterMap fun new_label =>
      if old_label.designator ≠ new_label.designator ∧
         ¬ ((designatorSet new_labels).contains old_label.designator = true) ∧
         ¬ ((designatorSet old_labels).contains new_label.designator = true) then
        some (taxiwayRenamedChange old_label new_label)
      else none

/-- `compare_taxiway_labels` from `comparator.py`: the ADDED loop, then
the REMOVED loop, then the RENAMED loop, appended in source order. -/
def compare_taxiway_labels (old_labels new_labels : List TaxiwayLabel) :
    List TaxiwayChange :=
  addedTaxiwayChanges old_labels new_labels ++
  removedTaxiwayChanges old_labels new_labels ++
  renamedTaxiwayChanges old_labels new_labels

/-- `get_number` from `normalize_runway_designator`: the decimal value
of all digit characters of the string, 0 when there are none. -/
def get_number (s : PyStr) : Nat :=
  let num := s.filter isDigitN
  if num.isEmpty then 0 else decVal num

/-- `normalize_runway_designator` from `comparator.py`: replace dashes
with slashes; when that splits into exactly two ends, order them with
the smaller extracted number first and uppercase; otherwise uppercase
the dash-replaced string. -/
def normalize_runway_designator (designator : PyStr) : PyStr :=
  let designator := designator.map fun c => if c = 45 then 47 else c
  match splitOnChar 47 designator with
  | [p0, p1] =>
      let parts := if get_number p0 > get_number p1 then (p1, p0) else (p0, p1)
      pyUpper parts.1 ++ 47 :: pyUpper parts.2
  | _ => pyUpper designator

/-- Python dict assignment `m[k] = v`: replace the value in place if
the key exists, else append. -/
def dictInsert : List (PyStr × RunwayData) → PyStr → RunwayData →
    List (PyStr × RunwayData)
  | [], k, v => [(k, v)]
  | (k', v') :: rest, k, v =>
      if k' = k then (k, v) :: rest else (k', v') :: dictInsert rest k v

/-- Python dict lookup. -/
def dictFind : List (PyStr × RunwayData) → PyStr → Option RunwayData
  | [], _ => none
  | (k, v) :: rest, d => if k = d then some v else dictFind rest d

/-- The lookup dictionary keyed by normalized designator: entries whose
normalized form is empty or the literal "UNKNOWN" are skipped. -/
def runwaysByDesignator (runways : List RunwayData) : List (PyStr × RunwayData) :=
  runways.foldl
    (fun m rwy =>
      let norm := normalize_runway_designator rwy.designator
      if norm ≠ [] ∧ norm ≠ pyOfString "UNKNOWN" then dictInsert m norm rwy
      else m)
    []

/-- The RUNWAY_ADDED record for a new-only designator. -/
def runwayAddedChange (designator : PyStr) (rwy : RunwayData) : RunwayChange :=
  { change_type := pyOfString "RUNWAY_ADDED"
    designator := designator
    old_length := 0
    new_length := rwy.length_ft
    old_width := 0
    new_width := rwy.width_ft
    old_x := 0
    old_y := 0
    new_x := rwy.x
    new_y := rwy.y
    description := pyOfString "New runway " ++ designator ++ pyOfString ": " ++
      intToStr rwy.length_ft ++ pyOfString " x " ++ intToStr rwy.width_ft ++
      pyOfString " ft" }

/-- The RUNWAY_REMOVED record for an old-only designator. -/
def runwayRemovedChange (designator : PyStr) (rwy : RunwayData) : RunwayChange :=
  { change_type := pyOfString "RUNWAY_REMOVED"
    designator := designator
    old_length := rwy.length_ft
    new_length := 0
    old_width := rwy.width_ft
    new_width := 0
    old_x := rwy.x
    old_y := rwy.y
    new_x := 0
    new_y := 0
    description := pyOfString "Runway " ++ designator ++
      pyOfString " removed (was " ++ intToStr rwy.length_ft ++
      pyOfString " x " ++ intToStr rwy.width_ft ++ pyOfString " ft)" }

/-- The dimension-change records (length then width) for a designator
present on both sides; each fires only when the old and new values
differ and both are strictly positive. -/
def dimensionChanges (designator : PyStr) (old_rwy new_rwy : RunwayData) :
    List RunwayChange :=
  let old_length := old_rwy.length_ft
  let new_length := new_rwy.length_ft
  let old_width := old_rwy.width_ft
  let new_width := new_rwy.width_ft
  (if old_length ≠ new_length ∧ old_length > 0 ∧ new_length > 0 then
    let diff := new_length - old_length
    let direction := if diff > 0 then pyOfString "extended" else pyOfString "shortened"
    [{ change_type := pyOfString "LENGTH_CHANGED"
       designator := designator
       old_length := old_length
       new_length := new_length
       old_width := old_width
       new_width := new_width
       old_x := old_rwy.x
       old_y := old_rwy.y
       new_x := new_rwy.x
       new_y := new_rwy.y
       description := pyOfString "Runway " ++ designator ++ 32 :: direction ++
         pyOfString " by " ++ natToStr diff.natAbs ++ pyOfString " ft (" ++
         intToStr old_length ++ pyOfString " → " ++ intToStr new_length ++
         pyOfString " ft)" }]
  else []) ++
  (if old_width ≠ new_width ∧ old_width > 0 ∧ new_width > 0 then
    let diff := new_width - old_width
    let direction := if diff > 0 then pyOfString "widened" else pyOfString "narrowed"
    [{ change_type := pyOfString "WIDTH_CHANGED"
       designator := designator
       old_length := old_length
       new_length := new_length
       old_width := old_width
       new_width := new_width
       old_x := old_rwy.x
       old_y := old_rwy.y
       new_x := new_rwy.x
       new_y := new_rwy.y
       description := pyOfString "Runway " ++ designator ++ 32 :: direction ++
         pyOfString " by " ++ natToStr diff.natAbs ++ pyOfString " ft (" ++
         intToStr old_width ++ pyOfString " → " ++ intToStr new_width ++
         pyOfString " ft wide)" }]
  else [])

/-- The RUNWAY_ADDED loop of `compare_runway_dimensions`: one record
per normalized designator present only in the new lookup map. -/
def runwayAddedChanges (old_by new_by : List (PyStr × RunwayData)) :
    List RunwayChange :=
  new_by.filterMap fun p =>
    if dictFind old_by p.1 = none then some (runwayAddedChange p.1 p.2)
    else none

/-- The RUNWAY_REMOVED loop of `compare_runway_dimensions`. -/
def runwayRemovedChanges (old_by new_by : List (PyStr × RunwayData)) :
    List RunwayChange :=
  old_by.filterMap fun p =>
    if dictFind new_by p.1 = none then some (runwayRemovedChange p.1 p.2)
    else none

/-- The dimension-change loop of `compare_runway_dimensions`: for each
designator of the new map also present in the old map, the length and
width comparisons. -/
def runwayDimChanges (old_by new_by : List (PyStr × RunwayData)) :
    List RunwayChange :=
  new_by.flatMap fun p =>
    match dictFind old_by p.1 with
    | some old_rwy => dimensionChanges p.1 old_rwy p.2
    | none => []

/-- `compare_runway_dimensions` from `comparator.py`: RUNWAY_ADDED for
new-only normalized designators, RUNWAY_REMOVED for old-only ones,
then LENGTH_CHANGED/WIDTH_CHANGED for designators on both sides. -/
def compare_runway_dimensions (old_runways new_runways : List RunwayData) :
    List RunwayChange :=
  let old_by_designator := runwaysByDesignator old_runways
  let new_by_designator := runwaysByDesignator new_runways
  runwayAddedChanges old_by_designator new_by_designator ++
  runwayRemovedChanges old_by_designator new_by_designator ++
  runwayDimChanges old_by_designator new_by_designator

/-- `compare_geometry` from `comparator.py`: a single coarse change
when the path counts differ by strictly more than 50. -/
def compare_geometry (old_paths new_paths : List PathSegment) :
    List GeometryChange :=
  let path_diff : Int := (new_paths.length : Int) - (old_paths.length : Int)
  if 50 < path_diff.natAbs then
    if 0 < path_diff then
      [{ change_type := pyOfString "GEOMETRY_ADDED"
         x := 0
         y := 0
         description := pyOfString "Approximately " ++ intToStr path_diff ++
           pyOfString " new path segments added (possible new taxiway geometry)" }]
    else
      [{ change_type := pyOfString "GEOMETRY_REMOVED"
         x := 0
         y := 0
         description := pyOfString "Approximately " ++ intToStr (-path_diff) ++
           pyOfString " path segments removed (possible taxiway removal)" }]
  else []

/-- One extracted snapshot as the comparator reads it. -/
structure ExtractionData where
  airport_code : PyStr
  cycle : PyStr
  taxiway_labels : List TaxiwayLabel
  runway_info : List RunwayData
  paths : List PathSegment
  deriving DecidableEq

/-- The summary counters of `compare_extractions`. -/
structure Summary where
  total_changes : Nat
  taxiways_added : Nat
  taxiways_removed : Nat
  taxiways_renamed : Nat
  runway_changes : Nat
  runway_length_changes : Nat
  runway_width_changes : Nat
  geometry_changes : Nat
  old_label_count : Nat
  new_label_count : Nat
  old_unique_designators : Nat
  new_unique_designators : Nat
  old_runway_count : Nat
  new_runway_count : Nat
  deriving DecidableEq

/-- `ComparisonResult` from `comparator.py`. -/
structure ComparisonResult where
  airport_code : PyStr
  old_cycle : PyStr
  new_cycle : PyStr
  taxiway_changes : List TaxiwayChange
  runway_changes : List RunwayChange
  geometry_changes : List GeometryChange
  summary : Summary
  deriving DecidableEq

/-- `compare_extractions` from `comparator.py`. -/
def compare_extractions (old_data new_data : ExtractionData) : ComparisonResult :=
  let old_labels := old_data.taxiway_labels
  let new_labels := new_data.taxiway_labels
  let taxiway_changes := compare_taxiway_labels old_labels new_labels
  let old_runways := old_data.runway_info
  let new_runways := new_data.runway_info
  let runway_changes := compare_runway_dimensions old_runways new_runways
  let old_paths := old_data.paths
  let new_paths := new_data.paths
  let geometry_changes := compare_geometry old_paths new_paths
  { airport_code := new_data.airport_code
    old_cycle := old_data.cycle
    new_cycle := new_data.cycle
    taxiway_changes := taxiway_changes
    runway_changes := runway_changes
    geometry_changes := geometry_changes
    summary :=
      { total_changes := taxiway_changes.length + runway_changes.length +
          geometry_changes.length
        taxiways_added := (taxiway_changes.filter
          (fun c => c.change_type == pyOfString "ADDED")).length
        taxiways_removed := (taxiway_changes.filter
          (fun c => c.change_type == pyOfString "REMOVED")).length
        taxiways_renamed := (taxiway_changes.filter
          (fun c => c.change_type == pyOfString "RENAMED")).length
        runway_changes := runway_changes.length
        runway_length_changes := (runway_changes.filter
          (fun c => c.change_type == pyOfString "LENGTH_CHANGED")).length
        runway_width_changes := (runway_changes.filter
          (fun c => c.change_type == pyOfString "WIDTH_CHANGED")).length
        geometry_changes := geometry_changes.length
        old_label_count := old_labels.length
        new_label_count := new_labels.length
        old_unique_designators := (designatorSet old_labels).length
        new_unique_designators := (designatorSet new_labels).length
        old_runway_count := old_runways.length
        new_runway_count := new_runways.length } }

/-! ### Helper lemmas on characters and strings -/

lemma upperCh_idem (n : Nat) : upperCh (upperCh n) = upperCh n := by
  unfold upperCh; split_ifs <;> omega

lemma upperCh_fix_low {k : Nat} (hk : k < 65) (n : Nat) :
    upperCh n = k ↔ n = k := by
  unfold upperCh; split_ifs <;> omega

lemma isDigitN_upperCh (n : Nat) : isDigitN (upperCh n) = isDigitN n := by
  unfold upperCh isDigitN
  split_ifs with h
  · rw [Bool.eq_iff_iff]
    simp only [Bool.and_eq_true, decide_eq_true_eq]
    omega
  · rfl

lemma upperCh_digit_fix {n : Nat} (h : isDigitN n = true) : upperCh n = n := by
  unfold isDigitN at h
  simp only [Bool.and_eq_true, decide_eq_true_eq] at h
  unfold upperCh; split_ifs with h2 <;> omega

lemma pyUpper_idem (s : PyStr) : pyUpper (pyUpper s) = pyUpper s := by
  unfold pyUpper
  rw [List.map_map]
  exact List.map_congr_left fun n _ => upperCh_idem n

lemma splitOnChar_cons_eq {sep c : Nat} {cs : PyStr} {h : PyStr} {t : List PyStr}
    (hcs : splitOnChar sep cs = h :: t) :
    splitOnChar sep (c :: cs) = if c = sep then [] :: h :: t else (c :: h) :: t := by
  unfold splitOnChar
  rw [hcs]

lemma splitOnChar_ne_nil (sep : Nat) (s : PyStr) : splitOnChar sep s ≠ [] := by
  induction s with
  | nil => simp [splitOnChar]
  | cons c cs ih =>
      rcases hcs : splitOnChar sep cs with _ | ⟨h1, t1⟩
      · exact absurd hcs ih
      · rw [splitOnChar_cons_eq hcs]
        split <;> simp

lemma splitOnChar_not_mem {sep : Nat} {s : PyStr} (h : sep ∉ s) :
    splitOnChar sep s = [s] := by
  induction s with
  | nil => rfl
  | cons c cs ih =>
      have hc : c ≠ sep := fun hcs => h (hcs ▸ List.mem_cons_self c cs)
      have hcs : sep ∉ cs := fun hm => h (List.mem_cons_of_mem c hm)
      rw [splitOnChar_cons_eq (ih hcs), if_neg hc]

lemma splitOnChar_append {sep : Nat} {a : PyStr} (b : PyStr) (h : sep ∉ a) :
    splitOnChar sep (a ++ sep :: b) = a :: splitOnChar sep b := by
  induction a with
  | nil =>
      rcases hb : splitOnChar sep b with _ | ⟨h1, t1⟩
      · exact absurd hb (splitOnChar_ne_nil sep b)
      · rw [List.nil_append, splitOnChar_cons_eq hb, if_pos rfl]

  | cons c cs ih =>
      have hc : c ≠ sep := fun hcs => h (hcs ▸ List.mem_cons_self c cs)
      have hcs : sep ∉ cs := fun hm => h (List.mem_cons_of_mem c hm)
      rw [List.cons_append, splitOnChar_cons_eq (ih hcs), if_neg hc]

lemma splitOnChar_single {sep : Nat} {s p : PyStr}
    (h : splitOnChar sep s = [p]) : s = p ∧ sep ∉ s := by
  induction s generalizing p with
  | nil =>
      simp only [splitOnChar] at h
      injection h with h1 h2
      exact ⟨h1, by simp⟩
  | cons c cs ih =>
      rcases hcs : splitOnChar sep cs with _ | ⟨h1, t1⟩
      · exact absurd hcs (splitOnChar_ne_nil sep cs)
      · rw [splitOnChar_cons_eq hcs] at h
        by_cases hc : c = sep
        · rw [if_pos hc] at h; simp at h
        · rw [if_neg hc] at h
          injection h with hp ht
          obtain ⟨he, hnm⟩ := ih (by rw [hcs, ht])
          constructor
          · rw [← hp, he]
          · intro hm
            rcases List.mem_cons.mp hm with h' | h'
            · exact hc h'.symm
            · exact hnm (he ▸ h')

lemma splitOnChar_pair {sep : Nat} {s p0 p1 : PyStr}
    (h : splitOnChar sep s = [p0, p1]) :
    s = p0 ++ sep :: p1 ∧ sep ∉ p0 ∧ sep ∉ p1 := by
  induction s generalizing p0 with
  | nil => simp [splitOnChar] at h
  | cons c cs ih =>
      rcases hcs : splitOnChar sep cs with _ | ⟨h1, t1⟩
      · exact absurd hcs (splitOnChar_ne_nil sep cs)
      · rw [splitOnChar_cons_eq hcs] at h
        by_cases hc : c = sep
        · rw [if_pos hc] at h
          injection h with hp0 hrest
          obtain ⟨he, hnm⟩ := splitOnChar_single (by rw [hcs]; exact hrest)
          subst hc
          exact ⟨by simp [← hp0, he], by simp [← hp0], he ▸ hnm⟩
        · rw [if_neg hc] at h
          injection h with hp0 hrest
          obtain ⟨he, hn0, hn1⟩ := @ih h1 (by rw [hcs, hrest])
          refine ⟨by rw [← hp0, he, List.cons_append], ?_, hn1⟩
          rw [← hp0]
          intro hm
          rcases List.mem_cons.mp hm with h' | h'
          · exact hc h'.symm
          · exact hn0 h'

lemma splitOnChar_map {sep : Nat} {f : Nat → Nat}
    (hf : ∀ c, f c = sep ↔ c = sep) (s : PyStr) :
    splitOnChar sep (s.map f) = (splitOnChar sep s).map (List.map f) := by
  induction s with
  | nil => rfl
  | cons c cs ih =>
      rcases hcs : splitOnChar sep cs with _ | ⟨h1, t1⟩
      · exact absurd hcs (splitOnChar_ne_nil sep cs)
      · have hmap : splitOnChar sep (cs.map f) = (h1.map f) :: (t1.map (List.map f)) := by
          rw [ih, hcs]; rfl
        rw [List.map_cons, splitOnChar_cons_eq hmap, splitOnChar_cons_eq hcs]
        by_cases hc : c = sep
        · rw [if_pos ((hf c).mpr hc), if_pos hc]; simp
        · rw [if_neg (fun hfc => hc ((hf c).mp hfc)), if_neg hc]; simp

lemma get_number_pyUpper (s : PyStr) : get_number (pyUpper s) = get_number s := by
  unfold get_number pyUpper
  rw [List.filter_map]
  have h1 : List.filter (isDigitN ∘ upperCh) s = List.filter isDigitN s :=
    List.filter_congr fun c _ => isDigitN_upperCh c
  rw [h1]
  have h2 : List.map upperCh (List.filter isDigitN s) = List.filter isDigitN s := by
    conv_rhs => rw [← List.map_id (List.filter isDigitN s)]
    exact List.map_congr_left fun c hc => upperCh_digit_fix (List.of_mem_filter hc)
  rw [h2]

/-! ### Lemmas about `normalize_runway_designator` -/

lemma rep45_ne (c : Nat) : (if c = 45 then 47 else c) ≠ 45 := by
  split_ifs with h <;> omega

lemma map_rep45_fix {l : PyStr} (h : ∀ c ∈ l, c ≠ 45) :
    (l.map fun c => if c = 45 then 47 else c) = l := by
  conv_rhs => rw [← List.map_id l]
  exact List.map_congr_left fun c hc => by rw [if_neg (h c hc)]; rfl

lemma not_mem_pyUpper_of {k : Nat} (hk : k < 65) {l : PyStr} (h : k ∉ l) :
    k ∉ pyUpper l := by
  intro hm
  obtain ⟨c, hc, he⟩ := List.mem_map.mp hm
  exact h (((upperCh_fix_low hk c).mp he) ▸ hc)

lemma normalize_match_pair {s p0 p1 : PyStr}
    (h : splitOnChar 47 (s.map fun c => if c = 45 then 47 else c) = [p0, p1]) :
    normalize_runway_designator s =
      if get_number p0 > get_number p1 then pyUpper p1 ++ 47 :: pyUpper p0
      else pyUpper p0 ++ 47 :: pyUpper p1 := by
  unfold normalize_runway_designator
  dsimp only
  rw [h]
  by_cases hgt : get_number p0 > get_number p1
  · rw [if_pos hgt]; dsimp only; rw [if_pos hgt]
  · rw [if_neg hgt]; dsimp only; rw [if_neg hgt]

lemma normalize_match_other {s : PyStr}
    (h : (splitOnChar 47 (s.map fun c => if c = 45 then 47 else c)).length ≠ 2) :
    normalize_runway_designator s =
      pyUpper (s.map fun c => if c = 45 then 47 else c) := by
  unfold normalize_runway_designator
  dsimp only
  rcases hp : splitOnChar 47 (s.map fun c => if c = 45 then 47 else c) with
    _ | ⟨p0, _ | ⟨p1, _ | ⟨p2, t⟩⟩⟩
  · exact absurd hp (splitOnChar_ne_nil _ _)
  · rfl
  · exact absurd (by rw [hp]; rfl) h
  · rfl

lemma normalize_pair_core {s a b : PyStr}
    (hmap : (s.map fun c => if c = 45 then 47 else c) = a ++ 47 :: b)
    (ha47 : 47 ∉ a) (hb47 : 47 ∉ b) :
    normalize_runway_designator s =
      if get_number a > get_number b then pyUpper b ++ 47 :: pyUpper a
      else pyUpper a ++ 47 :: pyUpper b := by
  apply normalize_match_pair
  rw [hmap, splitOnChar_append b ha47, splitOnChar_not_mem hb47]

lemma normalize_dash_pair {a b : PyStr}
    (ha45 : ∀ c ∈ a, c ≠ 45) (ha47 : 47 ∉ a)
    (hb45 : ∀ c ∈ b, c ≠ 45) (hb47 : 47 ∉ b) :
    normalize_runway_designator (a ++ 45 :: b) =
      if get_number a > get_number b then pyUpper b ++ 47 :: pyUpper a
      else pyUpper a ++ 47 :: pyUpper b := by
  have hmap : ((a ++ 45 :: b).map fun c => if c = 45 then 47 else c) =
      a ++ 47 :: b := by
    rw [List.map_append, List.map_cons, map_rep45_fix ha45, map_rep45_fix hb45,
      if_pos rfl]
  exact normalize_pair_core hmap ha47 hb47

/-- Claim C2 counterexample: the code is not order-independent over the
two ends when the extracted digit values tie; swapping the ends of
"4L-4R" produces a different normalized form. -/
theorem claim_C2_counterexample :
    normalize_runway_designator (pyOfString "4L-4R") = pyOfString "4L/4R" ∧
    normalize_runway_designator (pyOfString "4R-4L") = pyOfString "4R/4L" ∧
    normalize_runway_designator (pyOfString "4L-4R") ≠
      normalize_runway_designator (pyOfString "4R-4L") := by decide

lemma no45_map_rep (s : PyStr) :
    ∀ c ∈ (s.map fun c => if c = 45 then 47 else c), c ≠ 45 := by
  intro c hc
  obtain ⟨d, _, rfl⟩ := List.mem_map.mp hc
  exact rep45_ne d

lemma no45_upper_pair {a b : PyStr} (ha45 : ∀ c ∈ a, c ≠ 45)
    (hb45 : ∀ c ∈ b, c ≠ 45) :
    ∀ c ∈ pyUpper a ++ 47 :: pyUpper b, c ≠ 45 := by
  intro c hc
  rcases List.mem_append.mp hc with h | h
  · obtain ⟨d, hd, rfl⟩ := List.mem_map.mp h
    intro h45
    exact ha45 d hd ((upperCh_fix_low (by omega) d).mp h45)
  · rcases List.mem_cons.mp h with h | h
    · omega
    · obtain ⟨d, hd, rfl⟩ := List.mem_map.mp h
      intro h45
      exact hb45 d hd ((upperCh_fix_low (by omega) d).mp h45)

lemma normalize_fixpoint_pair {a b : PyStr}
    (ha45 : ∀ c ∈ a, c ≠ 45) (ha47 : 47 ∉ a)
    (hb45 : ∀ c ∈ b, c ≠ 45) (hb47 : 47 ∉ b)
    (hle : ¬ get_number a > get_number b) :
    normalize_runway_designator (pyUpper a ++ 47 :: pyUpper b) =
      pyUpper a ++ 47 :: pyUpper b := by
  have hmap : ((pyUpper a ++ 47 :: pyUpper b).map fun c => if c = 45 then 47 else c) =
      pyUpper a ++ 47 :: pyUpper b :=
    map_rep45_fix (no45_upper_pair ha45 hb45)
  have core := normalize_pair_core hmap
    (not_mem_pyUpper_of (by omega) ha47) (not_mem_pyUpper_of (by omega) hb47)
  rw [core, get_number_pyUpper, get_number_pyUpper, if_neg hle,
    pyUpper_idem, pyUpper_idem]

lemma normalize_runway_idem (s : PyStr) :
    normalize_runway_designator (normalize_runway_designator s) =
      normalize_runway_designator s := by
  have h45 : ∀ c ∈ (s.map fun c => if c = 45 then 47 else c), c ≠ 45 :=
    no45_map_rep s
  rcases hsp : splitOnChar 47 (s.map fun c => if c = 45 then 47 else c) with
    _ | ⟨p0, _ | ⟨p1, _ | ⟨p2, t⟩⟩⟩
  · exact absurd hsp (splitOnChar_ne_nil _ _)
  · -- one part: the catch-all branch
    have hother : (splitOnChar 47 (s.map fun c => if c = 45 then 47 else c)).length ≠ 2 := by
      rw [hsp]; simp
    rw [normalize_match_other hother]
    have hmap2 : ((pyUpper (s.map fun c => if c = 45 then 47 else c)).map
        fun c => if c = 45 then 47 else c) =
        pyUpper (s.map fun c => if c = 45 then 47 else c) := by
      apply map_rep45_fix
      intro c hc
      obtain ⟨d, hd, rfl⟩ := List.mem_map.mp hc
      intro hq
      exact h45 d hd ((upperCh_fix_low (by omega) d).mp hq)
    have hsplitlen : (splitOnChar 47 ((pyUpper (s.map fun c => if c = 45 then 47 else c)).map
        fun c => if c = 45 then 47 else c)).length ≠ 2 := by
      rw [hmap2]
      unfold pyUpper
      rw [splitOnChar_map (upperCh_fix_low (by omega)), List.length_map, hsp]
      simp
    rw [normalize_match_other hsplitlen, hmap2, pyUpper_idem]
  · -- exactly two parts
    obtain ⟨hdec, h47p0, h47p1⟩ := splitOnChar_pair hsp
    have h45p0 : ∀ c ∈ p0, c ≠ 45 := fun c hc =>
      h45 c (hdec ▸ List.mem_append_left _ hc)
    have h45p1 : ∀ c ∈ p1, c ≠ 45 := fun c hc =>
      h45 c (hdec ▸ List.mem_append_right _ (List.mem_cons_of_mem _ hc))
    have hx := normalize_match_pair hsp
    rw [hx]
    by_cases hgt : get_number p0 > get_number p1
    · rw [if_pos hgt]
      exact normalize_fixpoint_pair h45p1 h47p1 h45p0 h47p0 (by omega)
    · rw [if_neg hgt]
      exact normalize_fixpoint_pair h45p0 h47p0 h45p1 h47p1 hgt
  · -- three or more parts: the catch-all branch
    have hother : (splitOnChar 47 (s.map fun c => if c = 45 then 47 else c)).length ≠ 2 := by
      rw [hsp]; simp
    rw [normalize_match_other hother]
    have hmap2 : ((pyUpper (s.map fun c => if c = 45 then 47 else c)).map
        fun c => if c = 45 then 47 else c) =
        pyUpper (s.map fun c => if c = 45 then 47 else c) := by
      apply map_rep45_fix
      intro c hc
      obtain ⟨d, hd, rfl⟩ := List.mem_map.mp hc
      intro hq
      exact h45 d hd ((upperCh_fix_low (by omega) d).mp hq)
    have hsplitlen : (splitOnChar 47 ((pyUpper (s.map fun c => if c = 45 then 47 else c)).map
        fun c => if c = 45 then 47 else c)).length ≠ 2 := by
      rw [hmap2]
      unfold pyUpper
      rw [splitOnChar_map (upperCh_fix_low (by omega)), List.length_map, hsp]
      simp
    rw [normalize_match_other hsplitlen, hmap2, pyUpper_idem]

/-- Claim C2 (amended): `normalize_runway_designator` is idempotent,
maps both "22R-4L" and "4L-22R" to "4L/22R", is order-independent
over the two ends whenever their extracted digit values differ (on a
tie, the original order is kept, so swapped ties normalize
differently), and for every two-end input whose ends have different
extracted digit values it places the end with the strictly smaller
value first, uppercasing and preserving suffix letters. -/
theorem claim_C2_normalize_amended :
    (∀ s, normalize_runway_designator (normalize_runway_designator s) =
      normalize_runway_designator s) ∧
    normalize_runway_designator (pyOfString "22R-4L") = pyOfString "4L/22R" ∧
    normalize_runway_designator (pyOfString "4L-22R") = pyOfString "4L/22R" ∧
    (∀ a b : PyStr, (∀ c ∈ a, c ≠ 45) → 47 ∉ a → (∀ c ∈ b, c ≠ 45) → 47 ∉ b →
      get_number a ≠ get_number b →
      normalize_runway_designator (a ++ 45 :: b) =
        normalize_runway_designator (b ++ 45 :: a)) ∧
    (∀ a b : PyStr, (∀ c ∈ a, c ≠ 45) → 47 ∉ a → (∀ c ∈ b, c ≠ 45) → 47 ∉ b →
      get_number a < get_number b →
      normalize_runway_designator (a ++ 45 :: b) =
        pyUpper a ++ 47 :: pyUpper b ∧
      normalize_runway_designator (b ++ 45 :: a) =
        pyUpper a ++ 47 :: pyUpper b) := by
  refine ⟨normalize_runway_idem, by decide, by decide, ?_, ?_⟩
  · intro a b ha45 ha47 hb45 hb47 hne
    rw [normalize_dash_pair ha45 ha47 hb45 hb47,
      normalize_dash_pair hb45 hb47 ha45 ha47]
    rcases Nat.lt_or_ge (get_number a) (get_number b) with h | h
    · rw [if_neg (by omega), if_pos (by omega)]
    · have hgt : get_number a > get_number b := by omega
      rw [if_pos hgt, if_neg (by omega)]
  · intro a b ha45 ha47 hb45 hb47 hlt
    rw [normalize_dash_pair ha45 ha47 hb45 hb47,
      normalize_dash_pair hb45 hb47 ha45 ha47]
    exact ⟨by rw [if_neg (by omega)], by rw [if_pos (by omega)]⟩

/-- Witness for the amended claim C2 at concrete inputs. -/
theorem claim_C2_witness :
    normalize_runway_designator (normalize_runway_designator (pyOfString "22R-4L")) =
      normalize_runway_designator (pyOfString "22R-4L") ∧
    normalize_runway_designator (pyOfString "9" ++ 45 :: pyOfString "27") =
      normalize_runway_designator (pyOfString "27" ++ 45 :: pyOfString "9") ∧
    normalize_runway_designator (pyOfString "9" ++ 45 :: pyOfString "27") =
      pyUpper (pyOfString "9") ++ 47 :: pyUpper (pyOfString "27") :=
  ⟨claim_C2_normalize_amended.1 _,
   claim_C2_normalize_amended.2.2.2.1 _ _ (by decide) (by decide) (by decide)
     (by decide) (by decide),
   (claim_C2_normalize_amended.2.2.2.2 _ _ (by decide) (by decide) (by decide)
     (by decide) (by decide)).1⟩

/-- Claim C8 counterexample: on "1-2-3" the dash-to-slash replacement
splits into three parts, and the function returns "1/2/3" — the
uppercased dash-replaced string — not the uppercased original
"1-2-3". -/
theorem claim_C8_counterexample :
    (splitOnChar 47 ((pyOfString "1-2-3").map fun c =>
      if c = 45 then 47 else c)).length ≠ 2 ∧
    normalize_runway_designator (pyOfString "1-2-3") ≠
      pyUpper (pyOfString "1-2-3") := by decide

/-- Claim C8 (amended): for every input whose dash-to-slash replacement
does not split into exactly two parts on the slash,
`normalize_runway_designator` returns the uppercased dash-replaced
string (not the uppercased original). -/
theorem claim_C8_amended (s : PyStr)
    (h : (splitOnChar 47 (s.map fun c => if c = 45 then 47 else c)).length ≠ 2) :
    normalize_runway_designator s =
      pyUpper (s.map fun c => if c = 45 then 47 else c) :=
  normalize_match_other h

/-- Witness for the amended claim C8 at a concrete input. -/
theorem claim_C8_witness :
    (splitOnChar 47 ((pyOfString "ABC").map fun c =>
      if c = 45 then 47 else c)).length ≠ 2 ∧
    normalize_runway_designator (pyOfString "ABC") =
      pyUpper ((pyOfString "ABC").map fun c => if c = 45 then 47 else c) :=
  ⟨by decide, claim_C8_amended _ (by decide)⟩

/-- A fixed path segment for concrete geometry inputs. -/
def seg0 : PathSegment := ⟨0, 0, 0, 0, 1⟩

/-- Claim C5: with diff = count(new paths) − count(old paths),
`compare_geometry` emits exactly one GEOMETRY_ADDED change carrying
magnitude diff when diff > 50, exactly one GEOMETRY_REMOVED carrying
magnitude −diff when diff < −50, and nothing when the absolute
difference is at most 50; in particular 100 → 150 paths yields no
change and 100 → 151 yields one GEOMETRY_ADDED with magnitude 51. -/
theorem claim_C5_geometry_threshold (old_paths new_paths : List PathSegment) :
    (50 < (new_paths.length : Int) - (old_paths.length : Int) →
      compare_geometry old_paths new_paths =
        [{ change_type := pyOfString "GEOMETRY_ADDED", x := 0, y := 0,
           description := pyOfString "Approximately " ++
             intToStr ((new_paths.length : Int) - (old_paths.length : Int)) ++
             pyOfString " new path segments added (possible new taxiway geometry)" }]) ∧
    ((new_paths.length : Int) - (old_paths.length : Int) < -50 →
      compare_geometry old_paths new_paths =
        [{ change_type := pyOfString "GEOMETRY_REMOVED", x := 0, y := 0,
           description := pyOfString "Approximately " ++
             intToStr (-((new_paths.length : Int) - (old_paths.length : Int))) ++
             pyOfString " path segments removed (possible taxiway removal)" }]) ∧
    (((new_paths.length : Int) - (old_paths.length : Int)).natAbs ≤ 50 →
      compare_geometry old_paths new_paths = []) ∧
    compare_geometry (List.replicate 100 seg0) (List.replicate 150 seg0) = [] ∧
    compare_geometry (List.replicate 100 seg0) (List.replicate 151 seg0) =
      [{ change_type := pyOfString "GEOMETRY_ADDED", x := 0, y := 0,
         description := pyOfString "Approximately " ++ intToStr 51 ++
           pyOfString " new path segments added (possible new taxiway geometry)" }] := by
  refine ⟨?_, ?_, ?_, by decide, by decide⟩
  · intro h
    unfold compare_geometry
    dsimp only
    split_ifs with h1 h2
    · rfl
    · omega
    · omega
  · intro h
    unfold compare_geometry
    dsimp only
    split_ifs with h1 h2
    · omega
    · rfl
    · omega
  · intro h
    unfold compare_geometry
    dsimp only
    split_ifs with h1 h2
    · omega
    · omega
    · rfl

/-- Witness for claim C5 at the concrete boundary input. -/
theorem claim_C5_witness :
    compare_geometry (List.replicate 100 seg0) (List.replicate 151 seg0) =
      [{ change_type := pyOfString "GEOMETRY_ADDED", x := 0, y := 0,
         description := pyOfString "Approximately " ++
           intToStr (((List.replicate 151 seg0).length : Int) -
             ((List.replicate 100 seg0).length : Int)) ++
           pyOfString " new path segments added (possible new taxiway geometry)" }] :=
  (claim_C5_geometry_threshold (List.replicate 100 seg0)
    (List.replicate 151 seg0)).1 (by decide)

/-- Claim C10: every GeometryChange emitted by `compare_geometry` has
position x = 0 and y = 0, for all inputs. -/
theorem claim_C10_geometry_origin (old_paths new_paths : List PathSegment)
    (c : GeometryChange) (hc : c ∈ compare_geometry old_paths new_paths) :
    c.x = 0 ∧ c.y = 0 := by
  unfold compare_geometry at hc
  dsimp only at hc
  split_ifs at hc with h1 h2
  · have := List.mem_singleton.mp hc
    subst this
    exact ⟨rfl, rfl⟩
  · have := List.mem_singleton.mp hc
    subst this
    exact ⟨rfl, rfl⟩
  · exact absurd hc (List.not_mem_nil c)

/-- The single geometry change emitted for 0 → 51 paths, used by the
claim C10 witness. -/
def geomAdded51 : GeometryChange :=
  { change_type := pyOfString "GEOMETRY_ADDED", x := 0, y := 0,
    description := pyOfString "Approximately " ++ intToStr 51 ++
      pyOfString " new path segments added (possible new taxiway geometry)" }

/-- Witness for claim C10 at a concrete input. -/
theorem claim_C10_witness : geomAdded51.x = 0 ∧ geomAdded51.y = 0 :=
  claim_C10_geometry_origin [] (List.replicate 51 seg0) geomAdded51 (by decide)

/-! ### Lemmas for the self-comparison claim -/

lemma contains_iff_mem {l : List PyStr} {d : PyStr} :
    l.contains d = true ↔ d ∈ l := by
  induction l with
  | nil => simp
  | cons x xs ih =>
      simp only [List.contains_cons, Bool.or_eq_true, beq_iff_eq,
        List.mem_cons, ih]

lemma dedupFirstAux_mem (l : List PyStr) :
    ∀ (seen : List PyStr) (d : PyStr),
      d ∈ dedupFirstAux l seen ↔ d ∈ l ∧ d ∉ seen := by
  induction l with
  | nil => intro seen d; simp [dedupFirstAux]
  | cons x xs ih =>
      intro seen d
      unfold dedupFirstAux
      by_cases hx : seen.contains x = true
      · rw [if_pos hx]
        rw [ih seen d]
        have hxs : x ∈ seen := contains_iff_mem.mp hx
        constructor
        · rintro ⟨h1, h2⟩
          exact ⟨List.mem_cons_of_mem x h1, h2⟩
        · rintro ⟨h1, h2⟩
          rcases List.mem_cons.mp h1 with rfl | h1
          · exact absurd hxs h2
          · exact ⟨h1, h2⟩
      · rw [if_neg hx]
        have hxs : x ∉ seen := fun hm => hx (contains_iff_mem.mpr hm)
        constructor
        · intro h1
          rcases List.mem_cons.mp h1 with rfl | h1
          · exact ⟨List.mem_cons_self d xs, hxs⟩
          · obtain ⟨h2, h3⟩ := (ih (x :: seen) d).mp h1
            exact ⟨List.mem_cons_of_mem x h2,
              fun hm => h3 (List.mem_cons_of_mem x hm)⟩
        · rintro ⟨h1, h2⟩
          rcases List.mem_cons.mp h1 with rfl | h1
          · exact List.mem_cons_self d _
          · by_cases hdx : d = x
            · exact hdx ▸ List.mem_cons_self x _
            · refine List.mem_cons_of_mem x ((ih (x :: seen) d).mpr ⟨h1, ?_⟩)
              intro hm
              rcases List.mem_cons.mp hm with h | h
              · exact hdx h
              · exact h2 h

lemma dedupFirst_mem {l : List PyStr} {d : PyStr} :
    d ∈ dedupFirst l ↔ d ∈ l := by
  unfold dedupFirst
  rw [dedupFirstAux_mem]
  simp

lemma mem_designatorSet {labels : List TaxiwayLabel} {lab : TaxiwayLabel}
    (h : lab ∈ labels) :
    (designatorSet labels).contains lab.designator = true :=
  contains_iff_mem.mpr (dedupFirst_mem.mpr
    (List.mem_map_of_mem TaxiwayLabel.designator h))

lemma compare_taxiway_labels_self (l : List TaxiwayLabel) :
    compare_taxiway_labels l l = [] := by
  unfold compare_taxiway_labels addedTaxiwayChanges removedTaxiwayChanges
    renamedTaxiwayChanges
  have hfilter : (designatorSet l).filter
      (fun d => !((designatorSet l).contains d)) = [] := by
    rw [List.filter_eq_nil_iff]
    intro d hd
    rw [contains_iff_mem.mpr hd]
    simp
  rw [hfilter]
  simp only [List.filterMap_nil, List.nil_append]
  apply List.flatMap_eq_nil_iff.mpr
  intro o ho
  apply List.filterMap_eq_nil_iff.mpr
  intro n _
  exact if_neg fun hcond => hcond.2.1 (mem_designatorSet ho)

lemma dictInsert_keys_mem (m : List (PyStr × RunwayData)) (k : PyStr)
    (v : RunwayData) (x : PyStr) :
    x ∈ (dictInsert m k v).map Prod.fst ↔ x ∈ m.map Prod.fst ∨ x = k := by
  induction m with
  | nil => simp [dictInsert]
  | cons p rest ih =>
      obtain ⟨k', v'⟩ := p
      unfold dictInsert
      by_cases hk : k' = k
      · rw [if_pos hk]
        subst hk
        simp only [List.map_cons, List.mem_cons]
        constructor
        · rintro (rfl | h)
          · exact Or.inr rfl
          · exact Or.inl (Or.inr h)
        · rintro ((rfl | h) | rfl)
          · exact Or.inl rfl
          · exact Or.inr h
          · exact Or.inl rfl
      · rw [if_neg hk]
        simp only [List.map_cons, List.mem_cons, ih]
        tauto

lemma dictInsert_keys_nodup {m : List (PyStr × RunwayData)}
    (h : (m.map Prod.fst).Nodup) (k : PyStr) (v : RunwayData) :
    ((dictInsert m k v).map Prod.fst).Nodup := by
  induction m with
  | nil => simp [dictInsert]
  | cons p rest ih =>
      obtain ⟨k', v'⟩ := p
      simp only [List.map_cons, List.nodup_cons] at h
      unfold dictInsert
      by_cases hk : k' = k
      · rw [if_pos hk]
        simp only [List.map_cons, List.nodup_cons]
        exact ⟨hk ▸ h.1, h.2⟩
      · rw [if_neg hk]
        simp only [List.map_cons, List.nodup_cons]
        refine ⟨?_, ih h.2⟩
        rw [dictInsert_keys_mem]
        rintro (hm | rfl)
        · exact h.1 hm
        · exact hk rfl

lemma dictFind_mem_self {m : List (PyStr × RunwayData)}
    (hnd : (m.map Prod.fst).Nodup) {p : PyStr × RunwayData} (hp : p ∈ m) :
    dictFind m p.1 = some p.2 := by
  induction m with
  | nil => simp at hp
  | cons q rest ih =>
      obtain ⟨k', v'⟩ := q
      simp only [List.map_cons, List.nodup_cons] at hnd
      rcases List.mem_cons.mp hp with rfl | hp
      · unfold dictFind
        rw [if_pos rfl]
      · unfold dictFind
        have hne : k' ≠ p.1 := by
          intro he
          exact hnd.1 (he ▸ List.mem_map_of_mem Prod.fst hp)
        rw [if_neg hne]
        exact ih hnd.2 hp

lemma runwaysByDesignator_keys_nodup (runways : List RunwayData) :
    ((runwaysByDesignator runways).map Prod.fst).Nodup := by
  unfold runwaysByDesignator
  suffices h : ∀ (l : List RunwayData) (m : List (PyStr × RunwayData)),
      (m.map Prod.fst).Nodup →
      ((l.foldl (fun m rwy =>
        let norm := normalize_runway_designator rwy.designator
        if norm ≠ [] ∧ norm ≠ pyOfString "UNKNOWN" then dictInsert m norm rwy
        else m) m).map Prod.fst).Nodup by
    exact h runways [] (by simp)
  intro l
  induction l with
  | nil => intro m hm; exact hm
  | cons r rest ih =>
      intro m hm
      rw [List.foldl_cons]
      apply ih
      dsimp only
      split_ifs with hc
      · exact dictInsert_keys_nodup hm _ _
      · exact hm

lemma dimensionChanges_self (d : PyStr) (v : RunwayData) :
    dimensionChanges d v v = [] := by
  unfold dimensionChanges
  dsimp only
  rw [if_neg (fun h => h.1 rfl), if_neg (fun h => h.1 rfl)]
  rfl

lemma compare_runway_dimensions_self (r : List RunwayData) :
    compare_runway_dimensions r r = [] := by
  unfold compare_runway_dimensions runwayAddedChanges runwayRemovedChanges
    runwayDimChanges
  dsimp only
  have hnd := runwaysByDesignator_keys_nodup r
  have hadded : (runwaysByDesignator r).filterMap (fun p =>
      if dictFind (runwaysByDesignator r) p.1 = none then
        some (runwayAddedChange p.1 p.2)
      else none) = [] := by
    apply List.filterMap_eq_nil_iff.mpr
    intro p hp
    rw [if_neg]
    rw [dictFind_mem_self hnd hp]
    simp
  have hremoved : (runwaysByDesignator r).filterMap (fun p =>
      if dictFind (runwaysByDesignator r) p.1 = none then
        some (runwayRemovedChange p.1 p.2)
      else none) = [] := by
    apply List.filterMap_eq_nil_iff.mpr
    intro p hp
    rw [if_neg]
    rw [dictFind_mem_self hnd hp]
    simp
  have hdims : (runwaysByDesignator r).flatMap (fun p =>
      match dictFind (runwaysByDesignator r) p.1 with
      | some old_rwy => dimensionChanges p.1 old_rwy p.2
      | none => []) = [] := by
    apply List.flatMap_eq_nil_iff.mpr
    intro p hp
    rw [dictFind_mem_self hnd hp]
    exact dimensionChanges_self p.1 p.2
  rw [hadded, hremoved, hdims]
  rfl

lemma compare_geometry_self (p : List PathSegment) :
    compare_geometry p p = [] := by
  unfold compare_geometry
  dsimp only
  rw [if_neg]
  omega

/-- Claim C6: diffing a snapshot against itself yields empty taxiway,
runway, and geometry change lists. -/
theorem claim_C6_self_diff_empty (data : ExtractionData) :
    (compare_extractions data data).taxiway_changes = [] ∧
    (compare_extractions data data).runway_changes = [] ∧
    (compare_extractions data data).geometry_changes = [] := by
  unfold compare_extractions
  exact ⟨compare_taxiway_labels_self _, compare_runway_dimensions_self _,
    compare_geometry_self _⟩

/-! ### Lemmas for the taxiway-diff claims -/

/-- Number of changes in `l` with the given kind and designator. -/
def countTaxiwayChanges (l : List TaxiwayChange) (ty d : PyStr) : Nat :=
  (l.filter fun c => c.change_type == ty && c.designator == d).length

lemma countTaxiwayChanges_append (l1 l2 : List TaxiwayChange) (ty d : PyStr) :
    countTaxiwayChanges (l1 ++ l2) ty d =
      countTaxiwayChanges l1 ty d + countTaxiwayChanges l2 ty d := by
  simp [countTaxiwayChanges, List.filter_append]

lemma countTaxiwayChanges_eq_zero {l : List TaxiwayChange} {ty d : PyStr}
    (h : ∀ c ∈ l, c.change_type ≠ ty) : countTaxiwayChanges l ty d = 0 := by
  simp only [countTaxiwayChanges, List.length_eq_zero]
  apply List.filter_eq_nil_iff.mpr
  intro c hc
  simp only [Bool.and_eq_true, beq_iff_eq, not_and]
  intro h1
  exact absurd h1 (h c hc)

lemma dedupFirstAux_nodup (l : List PyStr) :
    ∀ seen, (dedupFirstAux l seen).Nodup := by
  induction l with
  | nil => intro seen; simp [dedupFirstAux]
  | cons x xs ih =>
      intro seen
      unfold dedupFirstAux
      split_ifs with hx
      · exact ih seen
      · rw [List.nodup_cons]
        refine ⟨?_, ih (x :: seen)⟩
        intro hm
        exact ((dedupFirstAux_mem xs (x :: seen) x).mp hm).2
          (List.mem_cons_self x seen)

lemma dedupFirst_nodup (l : List PyStr) : (dedupFirst l).Nodup :=
  dedupFirstAux_nodup l []

lemma find?_designator_isSome {n : List TaxiwayLabel} {d : PyStr}
    (h : d ∈ n.map TaxiwayLabel.designator) :
    ∃ lab, n.find? (fun lab => lab.designator == d) = some lab := by
  obtain ⟨lab, hlab, rfl⟩ := List.mem_map.mp h
  have hs : (n.find? (fun l => l.designator == lab.designator)).isSome := by
    rw [List.find?_isSome]
    exact ⟨lab, hlab, by simp⟩
  exact Option.isSome_iff_exists.mp hs

lemma filter_beq_length_nodup {L : List PyStr} (h : L.Nodup) (d : PyStr) :
    (L.filter fun d' => d' == d).length = if d ∈ L then 1 else 0 := by
  induction L with
  | nil => simp
  | cons x xs ih =>
      rw [List.nodup_cons] at h
      rw [List.filter_cons]
      by_cases hxd : x = d
      · subst hxd
        rw [if_pos (by simp)]
        simp only [List.length_cons, ih h.2]
        rw [if_neg h.1, if_pos (List.mem_cons_self x xs)]
      · rw [if_neg (by simp [hxd])]
        rw [ih h.2]
        by_cases hdx : d ∈ xs
        · rw [if_pos hdx, if_pos (List.mem_cons_of_mem x hdx)]
        · rw [if_neg hdx, if_neg (by
            intro hm
            rcases List.mem_cons.mp hm with h' | h'
            · exact hxd h'.symm
            · exact hdx h')]

lemma count_filterMap_find (n : List TaxiwayLabel)
    (mk : PyStr → TaxiwayLabel → TaxiwayChange) (ty : PyStr)
    (hty : ∀ d' lab, (mk d' lab).change_type = ty)
    (hdes : ∀ d' lab, (mk d' lab).designator = d') :
    ∀ (L : List PyStr) (d : PyStr),
      (∀ d' ∈ L, d' ∈ n.map TaxiwayLabel.designator) →
      ((L.filterMap fun d' =>
          (n.find? fun lab => lab.designator == d').map (mk d')).filter
        fun c => c.change_type == ty && c.designator == d).length =
      (L.filter fun d' => d' == d).length := by
  intro L
  induction L with
  | nil => intro d _; rfl
  | cons d' L' ih =>
      intro d hL
      obtain ⟨lab, hlab⟩ :=
        find?_designator_isSome (hL d' (List.mem_cons_self _ _))
      have hrec := ih d (fun x hx => hL x (List.mem_cons_of_mem _ hx))
      rw [List.filterMap_cons, hlab, Option.map_some']
      rw [List.filter_cons, List.filter_cons]
      rw [hty, hdes]
      cases hb : (d' == d : Bool)
      · simp [hb, hrec]
      · simp [hb, hrec]

lemma mem_addedTaxiwayChanges {o n : List TaxiwayLabel} {c : TaxiwayChange}
    (hc : c ∈ addedTaxiwayChanges o n) :
    ∃ d lab, d ∈ (designatorSet n).filter
        (fun d => !((designatorSet o).contains d)) ∧
      n.find? (fun lab => lab.designator == d) = some lab ∧
      c = taxiwayAddedChange d lab := by
  unfold addedTaxiwayChanges at hc
  obtain ⟨d, hd, hfd⟩ := List.mem_filterMap.mp hc
  cases hfind : n.find? (fun lab => lab.designator == d) with
  | none => rw [hfind] at hfd; simp at hfd
  | some lab =>
      rw [hfind, Option.map_some'] at hfd
      injection hfd with hfd
      exact ⟨d, lab, hd, hfind, hfd.symm⟩

lemma mem_removedTaxiwayChanges {o n : List TaxiwayLabel} {c : TaxiwayChange}
    (hc : c ∈ removedTaxiwayChanges o n) :
    ∃ d lab, d ∈ (designatorSet o).filter
        (fun d => !((designatorSet n).contains d)) ∧
      o.find? (fun lab => lab.designator == d) = some lab ∧
      c = taxiwayRemovedChange d lab := by
  unfold removedTaxiwayChanges at hc
  obtain ⟨d, hd, hfd⟩ := List.mem_filterMap.mp hc
  cases hfind : o.find? (fun lab => lab.designator == d) with
  | none => rw [hfind] at hfd; simp at hfd
  | some lab =>
      rw [hfind, Option.map_some'] at hfd
      injection hfd with hfd
      exact ⟨d, lab, hd, hfind, hfd.symm⟩

lemma mem_renamedTaxiwayChanges {o n : List TaxiwayLabel} {c : TaxiwayChange}
    (hc : c ∈ renamedTaxiwayChanges o n) :
    ∃ ol nl, ol ∈ o ∧ nl ∈ find_nearby_labels ol n ∧
      (ol.designator ≠ nl.designator ∧
       ¬ ((designatorSet n).contains ol.designator = true) ∧
       ¬ ((designatorSet o).contains nl.designator = true)) ∧
      c = taxiwayRenamedChange ol nl := by
  unfold renamedTaxiwayChanges at hc
  obtain ⟨ol, hol, hmem⟩ := List.mem_flatMap.mp hc
  obtain ⟨nl, hnl, hif⟩ := List.mem_filterMap.mp hmem
  split_ifs at hif with hcond
  injection hif with hif
  exact ⟨ol, nl, hol, hnl, hcond, hif.symm⟩

lemma addedTaxiwayChanges_type {o n : List TaxiwayLabel} {c : TaxiwayChange}
    (hc : c ∈ addedTaxiwayChanges o n) : c.change_type = pyOfString "ADDED" := by
  obtain ⟨d, lab, -, -, rfl⟩ := mem_addedTaxiwayChanges hc
  rfl

lemma removedTaxiwayChanges_type {o n : List TaxiwayLabel} {c : TaxiwayChange}
    (hc : c ∈ removedTaxiwayChanges o n) :
    c.change_type = pyOfString "REMOVED" := by
  obtain ⟨d, lab, -, -, rfl⟩ := mem_removedTaxiwayChanges hc
  rfl

lemma renamedTaxiwayChanges_type {o n : List TaxiwayLabel} {c : TaxiwayChange}
    (hc : c ∈ renamedTaxiwayChanges o n) :
    c.change_type = pyOfString "RENAMED" := by
  obtain ⟨ol, nl, -, -, -, rfl⟩ := mem_renamedTaxiwayChanges hc
  rfl

lemma mem_designatorSet_iff {labels : List TaxiwayLabel} {d : PyStr} :
    d ∈ designatorSet labels ↔ d ∈ labels.map TaxiwayLabel.designator :=
  dedupFirst_mem

/-- Claim C1: for every old/new label-list pair, `compare_taxiway_labels`
emits exactly one ADDED change for each designator in the new set but
not the old set, positioned at that designator's first occurrence in
the new list; exactly one REMOVED change for each designator only in
the old set, positioned at its first occurrence in the old list; no
ADDED change for a designator in the old set and no REMOVED change for
a designator in the new set. -/
theorem claim_C1_taxiway_added_removed (old_labels new_labels : List TaxiwayLabel)
    (d : PyStr) :
    (d ∈ new_labels.map TaxiwayLabel.designator →
     d ∉ old_labels.map TaxiwayLabel.designator →
      countTaxiwayChanges (compare_taxiway_labels old_labels new_labels)
        (pyOfString "ADDED") d = 1 ∧
      ∀ c ∈ compare_taxiway_labels old_labels new_labels,
        c.change_type = pyOfString "ADDED" → c.designator = d →
        ∃ lab, new_labels.find? (fun lab => lab.designator == d) = some lab ∧
          c.x = lab.x ∧ c.y = lab.y) ∧
    (d ∈ old_labels.map TaxiwayLabel.designator →
     d ∉ new_labels.map TaxiwayLabel.designator →
      countTaxiwayChanges (compare_taxiway_labels old_labels new_labels)
        (pyOfString "REMOVED") d = 1 ∧
      ∀ c ∈ compare_taxiway_labels old_labels new_labels,
        c.change_type = pyOfString "REMOVED" → c.designator = d →
        ∃ lab, old_labels.find? (fun lab => lab.designator == d) = some lab ∧
          c.x = lab.x ∧ c.y = lab.y) ∧
    (d ∈ old_labels.map TaxiwayLabel.designator →
      countTaxiwayChanges (compare_taxiway_labels old_labels new_labels)
        (pyOfString "ADDED") d = 0) ∧
    (d ∈ new_labels.map TaxiwayLabel.designator →
      countTaxiwayChanges (compare_taxiway_labels old_labels new_labels)
        (pyOfString "REMOVED") d = 0) := by
  have hcountA : countTaxiwayChanges
      (addedTaxiwayChanges old_labels new_labels) (pyOfString "ADDED") d =
      (((designatorSet new_labels).filter fun d' =>
        !((designatorSet old_labels).contains d')).filter fun d' => d' == d).length := by
    unfold countTaxiwayChanges addedTaxiwayChanges
    exact count_filterMap_find new_labels taxiwayAddedChange (pyOfString "ADDED")
      (fun _ _ => rfl) (fun _ _ => rfl) _ d
      (fun d' hd' => dedupFirst_mem.mp (List.mem_filter.mp hd').1)
  have hcountR : countTaxiwayChanges
      (removedTaxiwayChanges old_labels new_labels) (pyOfString "REMOVED") d =
      (((designatorSet old_labels).filter fun d' =>
        !((designatorSet new_labels).contains d')).filter fun d' => d' == d).length := by
    unfold countTaxiwayChanges removedTaxiwayChanges
    exact count_filterMap_find old_labels taxiwayRemovedChange (pyOfString "REMOVED")
      (fun _ _ => rfl) (fun _ _ => rfl) _ d
      (fun d' hd' => dedupFirst_mem.mp (List.mem_filter.mp hd').1)
  have hAnodup : ((designatorSet new_labels).filter fun d' =>
      !((designatorSet old_labels).contains d')).Nodup :=
    (dedupFirst_nodup _).filter _
  have hRnodup : ((designatorSet old_labels).filter fun d' =>
      !((designatorSet new_labels).contains d')).Nodup :=
    (dedupFirst_nodup _).filter _
  have hAzeroR : countTaxiwayChanges
      (addedTaxiwayChanges old_labels new_labels) (pyOfString "REMOVED") d = 0 :=
    countTaxiwayChanges_eq_zero fun c hc => by
      rw [addedTaxiwayChanges_type hc]; decide
  have hRzeroA : countTaxiwayChanges
      (removedTaxiwayChanges old_labels new_labels) (pyOfString "ADDED") d = 0 :=
    countTaxiwayChanges_eq_zero fun c hc => by
      rw [removedTaxiwayChanges_type hc]; decide
  have hNzeroA : countTaxiwayChanges
      (renamedTaxiwayChanges old_labels new_labels) (pyOfString "ADDED") d = 0 :=
    countTaxiwayChanges_eq_zero fun c hc => by
      rw [renamedTaxiwayChanges_type hc]; decide
  have hNzeroR : countTaxiwayChanges
      (renamedTaxiwayChanges old_labels new_labels) (pyOfString "REMOVED") d = 0 :=
    countTaxiwayChanges_eq_zero fun c hc => by
      rw [renamedTaxiwayChanges_type hc]; decide
  have hsplit : ∀ ty,
      countTaxiwayChanges (compare_taxiway_labels old_labels new_labels) ty d =
      countTaxiwayChanges (addedTaxiwayChanges old_labels new_labels) ty d +
      countTaxiwayChanges (removedTaxiwayChanges old_labels new_labels) ty d +
      countTaxiwayChanges (renamedTaxiwayChanges old_labels new_labels) ty d := by
    intro ty
    unfold compare_taxiway_labels
    rw [countTaxiwayChanges_append, countTaxiwayChanges_append]
  refine ⟨?_, ?_, ?_, ?_⟩
  · intro hnew hold
    have hcon : (designatorSet old_labels).contains d = false := by
      cases h' : (designatorSet old_labels).contains d
      · rfl
      · exact absurd (mem_designatorSet_iff.mp (contains_iff_mem.mp h')) hold
    have hdL : d ∈ (designatorSet new_labels).filter fun d' =>
        !((designatorSet old_labels).contains d') :=
      List.mem_filter.mpr ⟨mem_designatorSet_iff.mpr hnew, by rw [hcon]; rfl⟩
    constructor
    · rw [hsplit, hcountA, hRzeroA, hNzeroA,
        filter_beq_length_nodup hAnodup, if_pos hdL]
    · intro c hc hty hdes
      unfold compare_taxiway_labels at hc
      rcases List.mem_append.mp hc with hc | hc
      · rcases List.mem_append.mp hc with hc | hc
        · obtain ⟨d', lab, hd', hfind, rfl⟩ := mem_addedTaxiwayChanges hc
          have hdd : d' = d := hdes
          subst hdd
          exact ⟨lab, hfind, rfl, rfl⟩
        · have h1 := removedTaxiwayChanges_type hc
          rw [hty] at h1
          exact absurd h1 (by decide)
      · have h1 := renamedTaxiwayChanges_type hc
        rw [hty] at h1
        exact absurd h1 (by decide)
  · intro hold hnew
    have hcon : (designatorSet new_labels).contains d = false := by
      cases h' : (designatorSet new_labels).contains d
      · rfl
      · exact absurd (mem_designatorSet_iff.mp (contains_iff_mem.mp h')) hnew
    have hdL : d ∈ (designatorSet old_labels).filter fun d' =>
        !((designatorSet new_labels).contains d') :=
      List.mem_filter.mpr ⟨mem_designatorSet_iff.mpr hold, by rw [hcon]; rfl⟩
    constructor
    · rw [hsplit, hcountR, hAzeroR, hNzeroR,
        filter_beq_length_nodup hRnodup, if_pos hdL]
    · intro c hc hty hdes
      unfold compare_taxiway_labels at hc
      rcases List.mem_append.mp hc with hc | hc
      · rcases List.mem_append.mp hc with hc | hc
        · have h1 := addedTaxiwayChanges_type hc
          rw [hty] at h1
          exact absurd h1 (by decide)
        · obtain ⟨d', lab, hd', hfind, rfl⟩ := mem_removedTaxiwayChanges hc
          have hdd : d' = d := hdes
          subst hdd
          exact ⟨lab, hfind, rfl, rfl⟩
      · have h1 := renamedTaxiwayChanges_type hc
        rw [hty] at h1
        exact absurd h1 (by decide)
  · intro hold
    have hdL : d ∉ (designatorSet new_labels).filter fun d' =>
        !((designatorSet old_labels).contains d') := by
      intro hm
      have h2 := (List.mem_filter.mp hm).2
      rw [contains_iff_mem.mpr (mem_designatorSet_iff.mpr hold)] at h2
      exact absurd h2 (by decide)
    rw [hsplit, hcountA, hRzeroA, hNzeroA,
      filter_beq_length_nodup hAnodup, if_neg hdL]
  · intro hnew
    have hdL : d ∉ (designatorSet old_labels).filter fun d' =>
        !((designatorSet new_labels).contains d') := by
      intro hm
      have h2 := (List.mem_filter.mp hm).2
      rw [contains_iff_mem.mpr (mem_designatorSet_iff.mpr hnew)] at h2
      exact absurd h2 (by decide)
    rw [hsplit, hcountR, hAzeroR, hNzeroR,
      filter_beq_length_nodup hRnodup, if_neg hdL]

/-- Witness for claim C1 at a concrete input: designator "B" appears
only in the new list, first at position (100, 4). -/
theorem claim_C1_witness :
    countTaxiwayChanges
      (compare_taxiway_labels [⟨pyOfString "A", 1, 2⟩]
        [⟨pyOfString "A", 1, 2⟩, ⟨pyOfString "B", 100, 4⟩, ⟨pyOfString "B", 9, 9⟩])
      (pyOfString "ADDED") (pyOfString "B") = 1 ∧
    countTaxiwayChanges
      (compare_taxiway_labels [⟨pyOfString "A", 1, 2⟩]
        [⟨pyOfString "A", 1, 2⟩, ⟨pyOfString "B", 100, 4⟩, ⟨pyOfString "B", 9, 9⟩])
      (pyOfString "REMOVED") (pyOfString "A") = 0 :=
  ⟨((claim_C1_taxiway_added_removed [⟨pyOfString "A", 1, 2⟩]
      [⟨pyOfString "A", 1, 2⟩, ⟨pyOfString "B", 100, 4⟩, ⟨pyOfString "B", 9, 9⟩]
      (pyOfString "B")).1 (by decide) (by decide)).1,
   (claim_C1_taxiway_added_removed [⟨pyOfString "A", 1, 2⟩]
      [⟨pyOfString "A", 1, 2⟩, ⟨pyOfString "B", 100, 4⟩, ⟨pyOfString "B", 9, 9⟩]
      (pyOfString "A")).2.2.2 (by decide)⟩

/-- Claim C4: for every old label o and new label n within Euclidean
distance strictly less than 15, a RENAMED change with o's designator as
old_designator, n's designator, and n's position is emitted iff the two
designators differ, o's designator is absent from the new designator
set, and n's designator is absent from the old designator set; and on
inputs where several old labels fall in range of one new label,
multiple RENAMED records are emitted for a single physical rename. -/
theorem claim_C4_taxiway_renamed (old_labels new_labels : List TaxiwayLabel)
    (o n : TaxiwayLabel) (ho : o ∈ old_labels) (hn : n ∈ new_labels)
    (hdist : distanceSq o.x o.y n.x n.y < LOCATION_THRESHOLD ^ 2) :
    ((∃ c ∈ compare_taxiway_labels old_labels new_labels,
        c.change_type = pyOfString "RENAMED" ∧
        c.old_designator = o.designator ∧ c.designator = n.designator ∧
        c.x = n.x ∧ c.y = n.y) ↔
      (o.designator ≠ n.designator ∧
       o.designator ∉ new_labels.map TaxiwayLabel.designator ∧
       n.designator ∉ old_labels.map TaxiwayLabel.designator)) ∧
    countTaxiwayChanges
      (compare_taxiway_labels [⟨pyOfString "A", 0, 0⟩, ⟨pyOfString "A", 3, 0⟩]
        [⟨pyOfString "B", 1, 0⟩])
      (pyOfString "RENAMED") (pyOfString "B") = 2 := by
  refine ⟨⟨?_, ?_⟩, by decide⟩
  · rintro ⟨c, hc, hty, holdd, hdes, hx, hy⟩
    unfold compare_taxiway_labels at hc
    rcases List.mem_append.mp hc with hc | hc
    · rcases List.mem_append.mp hc with hc | hc
      · have h1 := addedTaxiwayChanges_type hc
        rw [hty] at h1
        exact absurd h1 (by decide)
      · have h1 := removedTaxiwayChanges_type hc
        rw [hty] at h1
        exact absurd h1 (by decide)
    · obtain ⟨ol, nl, hol, hnl, hcond, rfl⟩ := mem_renamedTaxiwayChanges hc
      have he1 : ol.designator = o.designator := holdd
      have he2 : nl.designator = n.designator := hdes
      refine ⟨?_, ?_, ?_⟩
      · rw [← he1, ← he2]; exact hcond.1
      · intro hmem
        exact hcond.2.1
          (contains_iff_mem.mpr (mem_designatorSet_iff.mpr (he1 ▸ hmem)))
      · intro hmem
        exact hcond.2.2
          (contains_iff_mem.mpr (mem_designatorSet_iff.mpr (he2 ▸ hmem)))
  · rintro ⟨h1, h2, h3⟩
    refine ⟨taxiwayRenamedChange o n,
      ?_, rfl, rfl, rfl, rfl, rfl⟩
    unfold compare_taxiway_labels
    apply List.mem_append_right
    unfold renamedTaxiwayChanges
    apply List.mem_flatMap.mpr
    refine ⟨o, ho, ?_⟩
    apply List.mem_filterMap.mpr
    refine ⟨n, ?_, ?_⟩
    · unfold find_nearby_labels
      exact List.mem_filter.mpr ⟨hn, decide_eq_true hdist⟩
    · rw [if_pos]
      exact ⟨h1,
        fun hcon => h2 (mem_designatorSet_iff.mp (contains_iff_mem.mp hcon)),
        fun hcon => h3 (mem_designatorSet_iff.mp (contains_iff_mem.mp hcon))⟩

/-- Witness for claim C4 at a concrete input: label "A" at the origin
renamed to "B" at (1, 0). -/
theorem claim_C4_witness :
    ∃ c ∈ compare_taxiway_labels [⟨pyOfString "A", 0, 0⟩] [⟨pyOfString "B", 1, 0⟩],
      c.change_type = pyOfString "RENAMED" ∧
      c.old_designator = (⟨pyOfString "A", 0, 0⟩ : TaxiwayLabel).designator ∧
      c.designator = (⟨pyOfString "B", 1, 0⟩ : TaxiwayLabel).designator ∧
      c.x = (⟨pyOfString "B", 1, 0⟩ : TaxiwayLabel).x ∧
      c.y = (⟨pyOfString "B", 1, 0⟩ : TaxiwayLabel).y :=
  ((claim_C4_taxiway_renamed [⟨pyOfString "A", 0, 0⟩] [⟨pyOfString "B", 1, 0⟩]
      ⟨pyOfString "A", 0, 0⟩ ⟨pyOfString "B", 1, 0⟩
      (by decide) (by decide) (by decide)).1).mpr (by decide)

/-! ### Lemmas for the runway dimension-change claim -/

/-- Number of runway changes in `l` with the given kind and
designator. -/
def countRunwayChanges (l : List RunwayChange) (ty d : PyStr) : Nat :=
  (l.filter fun c => c.change_type == ty && c.designator == d).length

lemma countRunwayChanges_append (l1 l2 : List RunwayChange) (ty d : PyStr) :
    countRunwayChanges (l1 ++ l2) ty d =
      countRunwayChanges l1 ty d + countRunwayChanges l2 ty d := by
  simp [countRunwayChanges, List.filter_append]

lemma countRunwayChanges_eq_zero {l : List RunwayChange} {ty d : PyStr}
    (h : ∀ c ∈ l, ¬ (c.change_type = ty ∧ c.designator = d)) :
    countRunwayChanges l ty d = 0 := by
  simp only [countRunwayChanges, List.length_eq_zero]
  apply List.filter_eq_nil_iff.mpr
  intro c hc
  simp only [Bool.and_eq_true, beq_iff_eq]
  exact h c hc

lemma mem_dimensionChanges {k : PyStr} {o' n' : RunwayData} {c : RunwayChange}
    (hc : c ∈ dimensionChanges k o' n') :
    c.designator = k ∧ (c.change_type = pyOfString "LENGTH_CHANGED" ∨
      c.change_type = pyOfString "WIDTH_CHANGED") := by
  unfold dimensionChanges at hc
  dsimp only at hc
  rcases List.mem_append.mp hc with h | h
  · by_cases hcond : o'.length_ft ≠ n'.length_ft ∧ o'.length_ft > 0 ∧ n'.length_ft > 0
    · rw [if_pos hcond, List.mem_singleton] at h
      subst h
      exact ⟨rfl, Or.inl rfl⟩
    · rw [if_neg hcond] at h
      simp at h
  · by_cases hcond : o'.width_ft ≠ n'.width_ft ∧ o'.width_ft > 0 ∧ n'.width_ft > 0
    · rw [if_pos hcond, List.mem_singleton] at h
      subst h
      exact ⟨rfl, Or.inr rfl⟩
    · rw [if_neg hcond] at h
      simp at h

lemma mem_runwayAddedChanges {ob nb : List (PyStr × RunwayData)}
    {c : RunwayChange} (hc : c ∈ runwayAddedChanges ob nb) :
    ∃ p ∈ nb, dictFind ob p.1 = none ∧ c = runwayAddedChange p.1 p.2 := by
  unfold runwayAddedChanges at hc
  obtain ⟨p, hp, hf⟩ := List.mem_filterMap.mp hc
  split_ifs at hf with hcond
  injection hf with hf
  exact ⟨p, hp, hcond, hf.symm⟩

lemma mem_runwayRemovedChanges {ob nb : List (PyStr × RunwayData)}
    {c : RunwayChange} (hc : c ∈ runwayRemovedChanges ob nb) :
    ∃ p ∈ ob, dictFind nb p.1 = none ∧ c = runwayRemovedChange p.1 p.2 := by
  unfold runwayRemovedChanges at hc
  obtain ⟨p, hp, hf⟩ := List.mem_filterMap.mp hc
  split_ifs at hf with hcond
  injection hf with hf
  exact ⟨p, hp, hcond, hf.symm⟩

lemma mem_runwayDimChanges {ob nb : List (PyStr × RunwayData)}
    {c : RunwayChange} (hc : c ∈ runwayDimChanges ob nb) :
    c.designator ∈ nb.map Prod.fst ∧
    (c.change_type = pyOfString "LENGTH_CHANGED" ∨
     c.change_type = pyOfString "WIDTH_CHANGED") := by
  unfold runwayDimChanges at hc
  obtain ⟨p, hp, hmem⟩ := List.mem_flatMap.mp hc
  cases hfo : dictFind ob p.1 with
  | none => rw [hfo] at hmem; simp at hmem
  | some o' =>
      rw [hfo] at hmem
      obtain ⟨hdes, hty⟩ := mem_dimensionChanges hmem
      exact ⟨hdes ▸ List.mem_map_of_mem Prod.fst hp, hty⟩

lemma countRunwayChanges_dimensionChanges_other {k d : PyStr}
    {o' n' : RunwayData} (ty : PyStr) (hk : k ≠ d) :
    countRunwayChanges (dimensionChanges k o' n') ty d = 0 :=
  countRunwayChanges_eq_zero fun c hc h =>
    hk ((mem_dimensionChanges hc).1 ▸ h.2)

lemma runwayDimChanges_count (ob : List (PyStr × RunwayData)) :
    ∀ (nb : List (PyStr × RunwayData)), (nb.map Prod.fst).Nodup →
    ∀ (d : PyStr) (n : RunwayData), dictFind nb d = some n →
    ∀ (ty : PyStr) (o : RunwayData), dictFind ob d = some o →
    countRunwayChanges (runwayDimChanges ob nb) ty d =
      countRunwayChanges (dimensionChanges d o n) ty d := by
  intro nb
  induction nb with
  | nil => intro _ d n hn; simp [dictFind] at hn
  | cons p rest ih =>
      obtain ⟨k, v⟩ := p
      intro hnd d n hn ty o ho
      simp only [List.map_cons, List.nodup_cons] at hnd
      unfold runwayDimChanges
      rw [List.flatMap_cons]
      rw [show (runwayDimChanges ob rest) = rest.flatMap (fun p =>
        match dictFind ob p.1 with
        | some old_rwy => dimensionChanges p.1 old_rwy p.2
        | none => []) from rfl] at ih
      rw [countRunwayChanges_append]
      by_cases hk : k = d
      · subst hk
        unfold dictFind at hn
        rw [if_pos rfl] at hn
        injection hn with hn
        subst hn
        have htail : countRunwayChanges (rest.flatMap (fun p =>
            match dictFind ob p.1 with
            | some old_rwy => dimensionChanges p.1 old_rwy p.2
            | none => [])) ty k = 0 := by
          apply countRunwayChanges_eq_zero
          intro c hc h
          have hdes := (mem_runwayDimChanges hc).1
          rw [h.2] at hdes
          exact hnd.1 hdes
        rw [htail, ho]
        simp
      · unfold dictFind at hn
        rw [if_neg hk] at hn
        have hhead : countRunwayChanges
            (match dictFind ob k with
             | some old_rwy => dimensionChanges k old_rwy v
             | none => []) ty d = 0 := by
          cases hfo : dictFind ob k with
          | none => rfl
          | some o' => exact countRunwayChanges_dimensionChanges_other ty hk
        rw [hhead, ih hnd.2 d n hn ty o ho]
        simp

lemma count_dimensionChanges_length (d : PyStr) (o n : RunwayData) :
    countRunwayChanges (dimensionChanges d o n) (pyOfString "LENGTH_CHANGED") d =
      if o.length_ft ≠ n.length_ft ∧ o.length_ft > 0 ∧ n.length_ft > 0 then 1
      else 0 := by
  have hw : (pyOfString "WIDTH_CHANGED" == pyOfString "LENGTH_CHANGED") = false := by
    decide
  unfold countRunwayChanges dimensionChanges
  dsimp only
  rw [List.filter_append, List.length_append]
  by_cases h1 : o.length_ft ≠ n.length_ft ∧ o.length_ft > 0 ∧ n.length_ft > 0
  · rw [if_pos h1, if_pos h1]
    by_cases h2 : o.width_ft ≠ n.width_ft ∧ o.width_ft > 0 ∧ n.width_ft > 0
    · rw [if_pos h2]; simp [hw]
    · rw [if_neg h2]; simp
  · rw [if_neg h1, if_neg h1]
    by_cases h2 : o.width_ft ≠ n.width_ft ∧ o.width_ft > 0 ∧ n.width_ft > 0
    · rw [if_pos h2]; simp [hw]
    · rw [if_neg h2]; simp

lemma count_dimensionChanges_width (d : PyStr) (o n : RunwayData) :
    countRunwayChanges (dimensionChanges d o n) (pyOfString "WIDTH_CHANGED") d =
      if o.width_ft ≠ n.width_ft ∧ o.width_ft > 0 ∧ n.width_ft > 0 then 1
      else 0 := by
  have hl : (pyOfString "LENGTH_CHANGED" == pyOfString "WIDTH_CHANGED") = false := by
    decide
  unfold countRunwayChanges dimensionChanges
  dsimp only
  rw [List.filter_append, List.length_append]
  by_cases h1 : o.length_ft ≠ n.length_ft ∧ o.length_ft > 0 ∧ n.length_ft > 0
  · rw [if_pos h1]
    by_cases h2 : o.width_ft ≠ n.width_ft ∧ o.width_ft > 0 ∧ n.width_ft > 0
    · rw [if_pos h2, if_pos h2]; simp [hl]
    · rw [if_neg h2, if_neg h2]; simp [hl]
  · rw [if_neg h1]
    by_cases h2 : o.width_ft ≠ n.width_ft ∧ o.width_ft > 0 ∧ n.width_ft > 0
    · rw [if_pos h2, if_pos h2]; simp
    · rw [if_neg h2, if_neg h2]; simp

/-- Claim C3: for every runway designator present in both lookup maps,
`compare_runway_dimensions` emits a LENGTH_CHANGED (resp. WIDTH_CHANGED)
change exactly when the old and new length (resp. width) differ and
both are strictly positive — so a 0-to-positive or positive-to-0
transition emits nothing — and no RUNWAY_ADDED or RUNWAY_REMOVED change
is emitted for that designator. -/
theorem claim_C3_runway_dimension_gating
    (old_runways new_runways : List RunwayData) (d : PyStr) (o n : RunwayData)
    (ho : dictFind (runwaysByDesignator old_runways) d = some o)
    (hn : dictFind (runwaysByDesignator new_runways) d = some n) :
    countRunwayChanges (compare_runway_dimensions old_runways new_runways)
      (pyOfString "LENGTH_CHANGED") d =
      (if o.length_ft ≠ n.length_ft ∧ o.length_ft > 0 ∧ n.length_ft > 0 then 1
       else 0) ∧
    countRunwayChanges (compare_runway_dimensions old_runways new_runways)
      (pyOfString "WIDTH_CHANGED") d =
      (if o.width_ft ≠ n.width_ft ∧ o.width_ft > 0 ∧ n.width_ft > 0 then 1
       else 0) ∧
    countRunwayChanges (compare_runway_dimensions old_runways new_runways)
      (pyOfString "RUNWAY_ADDED") d = 0 ∧
    countRunwayChanges (compare_runway_dimensions old_runways new_runways)
      (pyOfString "RUNWAY_REMOVED") d = 0 := by
  have hndn := runwaysByDesignator_keys_nodup new_runways
  have hsplit : ∀ ty,
      countRunwayChanges (compare_runway_dimensions old_runways new_runways) ty d =
      countRunwayChanges (runwayAddedChanges (runwaysByDesignator old_runways)
        (runwaysByDesignator new_runways)) ty d +
      countRunwayChanges (runwayRemovedChanges (runwaysByDesignator old_runways)
        (runwaysByDesignator new_runways)) ty d +
      countRunwayChanges (runwayDimChanges (runwaysByDesignator old_runways)
        (runwaysByDesignator new_runways)) ty d := by
    intro ty
    unfold compare_runway_dimensions
    rw [countRunwayChanges_append, countRunwayChanges_append]
  have haddedTy : ∀ ty, ty ≠ pyOfString "RUNWAY_ADDED" →
      countRunwayChanges (runwayAddedChanges (runwaysByDesignator old_runways)
        (runwaysByDesignator new_runways)) ty d = 0 := by
    intro ty hty
    apply countRunwayChanges_eq_zero
    intro c hc h
    obtain ⟨p, -, -, rfl⟩ := mem_runwayAddedChanges hc
    exact hty h.1.symm
  have hremovedTy : ∀ ty, ty ≠ pyOfString "RUNWAY_REMOVED" →
      countRunwayChanges (runwayRemovedChanges (runwaysByDesignator old_runways)
        (runwaysByDesignator new_runways)) ty d = 0 := by
    intro ty hty
    apply countRunwayChanges_eq_zero
    intro c hc h
    obtain ⟨p, -, -, rfl⟩ := mem_runwayRemovedChanges hc
    exact hty h.1.symm
  have hdimsTy : ∀ ty, ty ≠ pyOfString "LENGTH_CHANGED" →
      ty ≠ pyOfString "WIDTH_CHANGED" →
      countRunwayChanges (runwayDimChanges (runwaysByDesignator old_runways)
        (runwaysByDesignator new_runways)) ty d = 0 := by
    intro ty hty1 hty2
    apply countRunwayChanges_eq_zero
    intro c hc h
    rcases (mem_runwayDimChanges hc).2 with h1 | h1
    · exact hty1 (h.1 ▸ h1 ▸ rfl)
    · exact hty2 (h.1 ▸ h1 ▸ rfl)
  have haddedGuard : countRunwayChanges (runwayAddedChanges
      (runwaysByDesignator old_runways) (runwaysByDesignator new_runways))
      (pyOfString "RUNWAY_ADDED") d = 0 := by
    apply countRunwayChanges_eq_zero
    intro c hc h
    obtain ⟨p, -, hguard, rfl⟩ := mem_runwayAddedChanges hc
    have : p.1 = d := h.2
    rw [this, ho] at hguard
    exact Option.noConfusion hguard
  have hremovedGuard : countRunwayChanges (runwayRemovedChanges
      (runwaysByDesignator old_runways) (runwaysByDesignator new_runways))
      (pyOfString "RUNWAY_REMOVED") d = 0 := by
    apply countRunwayChanges_eq_zero
    intro c hc h
    obtain ⟨p, -, hguard, rfl⟩ := mem_runwayRemovedChanges hc
    have : p.1 = d := h.2
    rw [this, hn] at hguard
    exact Option.noConfusion hguard
  have hdimsEq : ∀ ty,
      countRunwayChanges (runwayDimChanges (runwaysByDesignator old_runways)
        (runwaysByDesignator new_runways)) ty d =
      countRunwayChanges (dimensionChanges d o n) ty d :=
    fun ty => runwayDimChanges_count _ _ hndn d n hn ty o ho
  refine ⟨?_, ?_, ?_, ?_⟩
  · rw [hsplit, haddedTy _ (by decide), hremovedTy _ (by decide), hdimsEq,
      count_dimensionChanges_length]
    simp
  · rw [hsplit, haddedTy _ (by decide), hremovedTy _ (by decide), hdimsEq,
      count_dimensionChanges_width]
    simp
  · rw [hsplit, haddedGuard, hremovedTy _ (by decide),
      hdimsTy _ (by decide) (by decide)]
  · rw [hsplit, haddedTy _ (by decide), hremovedGuard,
      hdimsTy _ (by decide) (by decide)]

/-- Witness for claim C3 at a concrete input: runway 10/28 lengthened
from 7200 ft to 7499 ft at constant width. -/
theorem claim_C3_witness :
    countRunwayChanges
      (compare_runway_dimensions [⟨pyOfString "10/28", 7200, 150, 0, 0⟩]
        [⟨pyOfString "10/28", 7499, 150, 0, 0⟩])
      (pyOfString "LENGTH_CHANGED") (pyOfString "10/28") =
      (if (7200 : Int) ≠ 7499 ∧ (7200 : Int) > 0 ∧ (7499 : Int) > 0 then 1
       else 0) :=
  (claim_C3_runway_dimension_gating [⟨pyOfString "10/28", 7200, 150, 0, 0⟩]
    [⟨pyOfString "10/28", 7499, 150, 0, 0⟩] (pyOfString "10/28")
    ⟨pyOfString "10/28", 7200, 150, 0, 0⟩ ⟨pyOfString "10/28", 7499, 150, 0, 0⟩
    (by decide) (by decide)).1

/-! ### Lemmas about the taxiway designator pattern -/

lemma reOutcomes_cls_consume {p : Nat → Bool} {s : PyStr} {o : Caps × PyStr}
    (h : o ∈ reOutcomes (.cls p) s) : s.length = o.2.length + 1 := by
  cases s with
  | nil => simp [reOutcomes] at h
  | cons c rest =>
      simp only [reOutcomes] at h
      split_ifs at h with hp
      · rw [List.mem_singleton] at h
        subst h
        simp
      · simp at h

lemma repOutcomes_consume_le {f : PyStr → List (Caps × PyStr)}
    (hf : ∀ s' o', o' ∈ f s' → s'.length ≤ o'.2.length + 1) :
    ∀ (fuel : Nat) (lo k : Nat) (s : PyStr) (o : Caps × PyStr),
      o ∈ repOutcomes f lo (some k) fuel s → s.length ≤ o.2.length + k := by
  intro fuel
  induction fuel with
  | zero =>
      intro lo k s o h
      simp only [repOutcomes] at h
      split_ifs at h
      · rw [List.mem_singleton] at h
        subst h
        exact Nat.le_add_right _ _
      · simp at h
  | succ fuel ih =>
      intro lo k s o h
      simp only [repOutcomes] at h
      rcases List.mem_append.mp h with h | h
      · split_ifs at h with hk0
        · simp at h
        · have hkpos : k ≠ 0 := by
            intro hk
            exact hk0 (by rw [hk])
          obtain ⟨o1, ho1, hmem⟩ := List.mem_flatMap.mp h
          split_ifs at hmem with hlt
          · obtain ⟨o2, ho2, rfl⟩ := List.mem_map.mp hmem
            have hb1 := hf s o1 ho1
            have hb2 := ih (lo - 1) (k - 1) o1.2 o2 (by
              simpa using ho2)
            simp only
            omega
          · simp at hmem
      · split_ifs at h
        · rw [List.mem_singleton] at h
          subst h
          exact Nat.le_add_right _ _
        · simp at h

lemma reOutcomes_rep_cls_consume {p : Nat → Bool} {lo k : Nat} {s : PyStr}
    {o : Caps × PyStr} (h : o ∈ reOutcomes (.rep lo (some k) (.cls p)) s) :
    s.length ≤ o.2.length + k := by
  simp only [reOutcomes] at h
  exact repOutcomes_consume_le
    (fun s' o' h' => le_of_eq (reOutcomes_cls_consume h')) _ _ _ _ _ h

lemma taxiway_outcome_consume {s : PyStr} {o : Caps × PyStr}
    (h : o ∈ reOutcomes TAXIWAY_PATTERN s) : s.length ≤ o.2.length + 3 := by
  simp only [TAXIWAY_PATTERN, reOutcomes] at h
  obtain ⟨o1, ho1, hmem⟩ := List.mem_flatMap.mp h
  obtain ⟨o2, ho2, rfl⟩ := List.mem_map.mp hmem
  have h1 := reOutcomes_rep_cls_consume ho1
  have h2 := reOutcomes_rep_cls_consume ho2
  simp only
  omega

lemma taxiway_fullmatch_long {s : PyStr} (h : 4 ≤ s.length) :
    reFullmatch TAXIWAY_PATTERN s = false := by
  cases hb : reFullmatch TAXIWAY_PATTERN s
  · rfl
  · exfalso
    unfold reFullmatch at hb
    obtain ⟨o, ho, hemp⟩ := List.any_eq_true.mp hb
    have hlen := taxiway_outcome_consume ho
    rw [List.isEmpty_iff] at hemp
    rw [hemp] at hlen
    simp at hlen
    omega

lemma restricted_upper {x : Nat} (h : isRestrictedLetter x = true) :
    isUpperLetter x = true := by
  simp only [isRestrictedLetter, Bool.and_eq_true, Bool.or_eq_true,
    decide_eq_true_eq] at h
  simp only [isUpperLetter, Bool.and_eq_true, decide_eq_true_eq]
  omega

lemma taxiway_fullmatch_one (a : Nat) :
    reFullmatch TAXIWAY_PATTERN [a] = isRestrictedLetter a := by
  cases hra : isRestrictedLetter a <;>
    simp [reFullmatch, TAXIWAY_PATTERN, reOutcomes, repOutcomes, hra]

lemma taxiway_fullmatch_two (a b : Nat) :
    reFullmatch TAXIWAY_PATTERN [a, b] =
      (isRestrictedLetter a && isUpperLetter b) := by
  cases hra : isRestrictedLetter a <;> cases hrb : isRestrictedLetter b
  · cases hub : isUpperLetter b <;>
      simp [reFullmatch, TAXIWAY_PATTERN, reOutcomes, repOutcomes, hra, hrb, hub]
  · have hub := restricted_upper hrb
    simp [reFullmatch, TAXIWAY_PATTERN, reOutcomes, repOutcomes, hra, hrb, hub]
  · cases hub : isUpperLetter b <;>
      simp [reFullmatch, TAXIWAY_PATTERN, reOutcomes, repOutcomes, hra, hrb, hub]
  · have hub := restricted_upper hrb
    simp [reFullmatch, TAXIWAY_PATTERN, reOutcomes, repOutcomes, hra, hrb, hub]

lemma taxiway_fullmatch_three (a b c : Nat) :
    reFullmatch TAXIWAY_PATTERN [a, b, c] =
      (isRestrictedLetter a && isRestrictedLetter b && isUpperLetter c) := by
  cases hra : isRestrictedLetter a <;> cases hrb : isRestrictedLetter b <;>
    cases huc : isUpperLetter c
  · cases hub : isUpperLetter b <;>
      simp [reFullmatch, TAXIWAY_PATTERN, reOutcomes, repOutcomes,
        hra, hrb, hub, huc]
  · cases hub : isUpperLetter b <;>
      simp [reFullmatch, TAXIWAY_PATTERN, reOutcomes, repOutcomes,
        hra, hrb, hub, huc]
  · have hub := restricted_upper hrb
    simp [reFullmatch, TAXIWAY_PATTERN, reOutcomes, repOutcomes,
      hra, hrb, hub, huc]
  · have hub := restricted_upper hrb
    simp [reFullmatch, TAXIWAY_PATTERN, reOutcomes, repOutcomes,
      hra, hrb, hub, huc]
  · cases hub : isUpperLetter b <;>
      simp [reFullmatch, TAXIWAY_PATTERN, reOutcomes, repOutcomes,
        hra, hrb, hub, huc]
  · cases hub : isUpperLetter b <;>
      simp [reFullmatch, TAXIWAY_PATTERN, reOutcomes, repOutcomes,
        hra, hrb, hub, huc]
  · have hub := restricted_upper hrb
    simp [reFullmatch, TAXIWAY_PATTERN, reOutcomes, repOutcomes,
      hra, hrb, hub, huc]
  · have hub := restricted_upper hrb
    simp [reFullmatch, TAXIWAY_PATTERN, reOutcomes, repOutcomes,
      hra, hrb, hub, huc]

/-- The language of `TAXIWAY_PATTERN` under full anchoring: one or two
restricted letters, optionally followed by any uppercase letter (the
final optional letter may be I or O). -/
lemma taxiway_fullmatch_iff (t : PyStr) :
    reFullmatch TAXIWAY_PATTERN t = true ↔
      (∃ a, t = [a] ∧ isRestrictedLetter a = true) ∨
      (∃ a b, t = [a, b] ∧ isRestrictedLetter a = true ∧
        isUpperLetter b = true) ∨
      (∃ a b c, t = [a, b, c] ∧ isRestrictedLetter a = true ∧
        isRestrictedLetter b = true ∧ isUpperLetter c = true) := by
  rcases t with _ | ⟨a, _ | ⟨b, _ | ⟨c, _ | ⟨e, rest⟩⟩⟩⟩
  · simp [reFullmatch, TAXIWAY_PATTERN, reOutcomes, repOutcomes]
  · rw [taxiway_fullmatch_one]
    simp
  · rw [taxiway_fullmatch_two]
    simp [and_assoc]
  · rw [taxiway_fullmatch_three]
    simp [and_assoc]
  · rw [taxiway_fullmatch_long (by simp)]
    simp

/-! ### Lemmas about stripping and uppercasing -/

lemma isSpaceN_upperCh (c : Nat) : isSpaceN (upperCh c) = isSpaceN c := by
  unfold upperCh isSpaceN
  split_ifs with h
  · rw [Bool.eq_iff_iff]
    simp only [Bool.or_eq_true, decide_eq_true_eq]
    omega
  · rfl

lemma dropWhile_map_upper (p : Nat → Bool) (hp : ∀ c, p (upperCh c) = p c)
    (l : PyStr) :
    (l.map upperCh).dropWhile p = (l.dropWhile p).map upperCh := by
  induction l with
  | nil => rfl
  | cons x xs ih =>
      rw [List.map_cons, List.dropWhile_cons, List.dropWhile_cons, hp x]
      split_ifs with hx
      · exact ih
      · rfl

lemma pyStrip_pyUpper (s : PyStr) :
    pyStrip (pyUpper s) = pyUpper (pyStrip s) := by
  unfold pyStrip pyUpper
  rw [dropWhile_map_upper isSpaceN isSpaceN_upperCh s, ← List.map_reverse,
    dropWhile_map_upper isSpaceN isSpaceN_upperCh, ← List.map_reverse]

lemma dropWhile_dropWhile (p : Nat → Bool) (l : PyStr) :
    (l.dropWhile p).dropWhile p = l.dropWhile p := by
  induction l with
  | nil => rfl
  | cons x xs ih =>
      rw [List.dropWhile_cons]
      split_ifs with hx
      · exact ih
      · rw [List.dropWhile_cons, if_neg hx]

lemma dropWhile_head_false {p : Nat → Bool} {l : PyStr} {x : Nat} {xs : PyStr}
    (h : l.dropWhile p = x :: xs) : p x = false := by
  induction l with
  | nil => simp at h
  | cons y ys ih =>
      rw [List.dropWhile_cons] at h
      split_ifs at h with hy
      · exact ih h
      · injection h with h1 _
        subst h1
        exact Bool.eq_false_iff.mpr hy

lemma pyStrip_idem (s : PyStr) : pyStrip (pyStrip s) = pyStrip s := by
  have hstep1 : (pyStrip s).dropWhile isSpaceN = pyStrip s := by
    rcases hP : pyStrip s with _ | ⟨x, xs⟩
    · rfl
    · rw [List.dropWhile_cons, if_neg]
      -- the head of the stripped string came through a reversed suffix,
      -- so it is the head of the front-stripped list, which fails p
      unfold pyStrip at hP
      have hsfx : ((s.dropWhile isSpaceN).reverse.dropWhile isSpaceN) <:+
          (s.dropWhile isSpaceN).reverse := List.dropWhile_suffix _
      have hpre : ((s.dropWhile isSpaceN).reverse.dropWhile isSpaceN).reverse <+:
          (s.dropWhile isSpaceN) := by
        have h0 := List.reverse_prefix.mpr hsfx
        rwa [List.reverse_reverse] at h0
      rw [hP] at hpre
      obtain ⟨t, ht⟩ := hpre
      rw [List.cons_append] at ht
      simp [dropWhile_head_false ht.symm]
  have hstep2 : (pyStrip s).reverse =
      (s.dropWhile isSpaceN).reverse.dropWhile isSpaceN := by
    unfold pyStrip
    rw [List.reverse_reverse]
  have hgoal : pyStrip (pyStrip s) =
      (((pyStrip s).dropWhile isSpaceN).reverse.dropWhile isSpaceN).reverse := rfl
  rw [hgoal, hstep1, hstep2, dropWhile_dropWhile, ← hstep2,
    List.reverse_reverse]

lemma upperStrip_idem (s : PyStr) :
    pyUpper (pyStrip (pyUpper (pyStrip s))) = pyUpper (pyStrip s) := by
  rw [pyStrip_pyUpper, pyStrip_idem, pyUpper_idem]

/-- The acceptance set of `is_valid_taxiway_designator` on already
stripped-and-uppercased text: one restricted letter, or a restricted
letter followed by any uppercase letter, outside the excluded-token
set.  Length-3 strings are never accepted (the function falls through
to `return False`), and the final letter of a two-letter designator may
be I or O (the pattern's optional letter uses the full class). -/
lemma is_valid_iff (x : PyStr) :
    is_valid_taxiway_designator (pyUpper (pyStrip x)) = true ↔
      ((∃ a, pyUpper (pyStrip x) = [a] ∧ isRestrictedLetter a = true) ∨
       (∃ a b, pyUpper (pyStrip x) = [a, b] ∧ isRestrictedLetter a = true ∧
         isUpperLetter b = true)) ∧
      false_positives.contains (pyUpper (pyStrip x)) = false := by
  unfold is_valid_taxiway_designator
  rw [show pyUpper (pyStrip (pyUpper (pyStrip x))) = pyUpper (pyStrip x) from
    upperStrip_idem x]
  by_cases hfp : false_positives.contains (pyUpper (pyStrip x)) = true
  · rw [if_pos hfp]
    simp only [Bool.false_eq_true, false_iff]
    rintro ⟨-, hc⟩
    rw [hfp] at hc
    exact Bool.noConfusion hc
  · have hfp' : false_positives.contains (pyUpper (pyStrip x)) = false :=
      Bool.eq_false_iff.mpr hfp
    rw [if_neg hfp]
    by_cases hpm : reFullmatch TAXIWAY_PATTERN (pyUpper (pyStrip x)) = true
    · rw [if_neg (by simp [hpm])]
      rcases (taxiway_fullmatch_iff _).mp hpm with h | h | h
      · obtain ⟨a, heq, hra⟩ := h
        rw [heq] at hfp' ⊢
        simp [hra, hfp']
        exact fun hm => by
          rw [contains_iff_mem.mpr hm] at hfp'
          exact Bool.noConfusion hfp'
      · obtain ⟨a, b, heq, hra, hub⟩ := h
        rw [heq] at hfp' ⊢
        simp [hra, hub, hfp', and_assoc]
        exact fun hm => by
          rw [contains_iff_mem.mpr hm] at hfp'
          exact Bool.noConfusion hfp'
      · obtain ⟨a, b, c, heq, hra, hrb, huc⟩ := h
        rw [heq]
        simp
    · rw [if_pos (by simp [Bool.eq_false_iff.mpr hpm])]
      constructor
      · intro h
        exact absurd h (by simp)
      · rintro ⟨h | h, -⟩
        · obtain ⟨a, heq, hra⟩ := h
          exact absurd ((taxiway_fullmatch_iff _).mpr (Or.inl ⟨a, heq, hra⟩)) hpm
        · obtain ⟨a, b, heq, hra, hub⟩ := h
          exact absurd ((taxiway_fullmatch_iff _).mpr
            (Or.inr (Or.inl ⟨a, b, heq, hra, hub⟩))) hpm

/-- The taxiway-designator shape as claimed in the specification:
1-2 letters from A-Z excluding I and O, optionally followed by one more
such (restricted) letter — that is, 1 to 3 restricted letters. -/
def spec_taxiway_shape (t : PyStr) : Prop :=
  1 ≤ t.length ∧ t.length ≤ 3 ∧ ∀ c ∈ t, isRestrictedLetter c = true

instance (t : PyStr) : Decidable (spec_taxiway_shape t) := by
  unfold spec_taxiway_shape; infer_instance

/-- Span acceptance as claimed in the specification: font size in
[4, 10], uppercased stripped text of the claimed shape, and text not in
the excluded-token set. -/
def spec_span_accepted (span : TextSpan) : Prop :=
  (4 ≤ span.size ∧ span.size ≤ 10) ∧
  spec_taxiway_shape (pyUpper (pyStrip span.text)) ∧
  false_positives.contains (pyUpper (pyStrip span.text)) = false

instance (span : TextSpan) : Decidable (spec_span_accepted span) := by
  unfold spec_span_accepted; infer_instance

/-- Claim C7 counterexample: the span "AAA" (font 6, centered inside
the interior bounds of a 612 x 792 page) satisfies the claimed
conditions — three restricted letters, not excluded — but the code
rejects it: `is_valid_taxiway_designator` returns False for every
three-letter string. -/
theorem claim_C7_counterexample :
    spanCenterInBounds (extract_diagram_bounds 612 792)
      ⟨pyOfString "AAA", 300, 400, 310, 410, 6⟩ ∧
    ¬ (span_accepted (extract_diagram_bounds 612 792)
        ⟨pyOfString "AAA", 300, 400, 310, 410, 6⟩ = true ↔
       spec_span_accepted ⟨pyOfString "AAA", 300, 400, 310, 410, 6⟩) := by
  decide

/-- Claim C7 (amended): a text span whose center lies strictly inside
the diagram interior bounds is accepted as a taxiway label iff (1) its
font size is in [4, 10], (2) its uppercased stripped text is a single
letter from A-Z minus I and O, or such a letter followed by one more
letter from the full A-Z (the final letter may be I or O; three-letter
strings are never accepted), and (3) the text is not in the fixed
excluded-token set. -/
theorem claim_C7_amended (w h : Rat) (span : TextSpan)
    (hin : spanCenterInBounds (extract_diagram_bounds w h) span) :
    span_accepted (extract_diagram_bounds w h) span = true ↔
      ((4 ≤ span.size ∧ span.size ≤ 10) ∧
       ((∃ a, pyUpper (pyStrip span.text) = [a] ∧
          isRestrictedLetter a = true) ∨
        (∃ a b, pyUpper (pyStrip span.text) = [a, b] ∧
          isRestrictedLetter a = true ∧ isUpperLetter b = true)) ∧
       false_positives.contains (pyUpper (pyStrip span.text)) = false) := by
  unfold span_accepted
  dsimp only
  rw [if_neg (not_not_intro hin)]
  by_cases hfont : span.size < 4 ∨ span.size > 10
  · rw [if_pos hfont]
    have hnf : ¬ (4 ≤ span.size ∧ span.size ≤ 10) := by
      rcases hfont with h1 | h1
      · exact fun hc => absurd hc.1 (not_le.mpr h1)
      · exact fun hc => absurd hc.2 (not_le.mpr h1)
    simp [hnf]
  · rw [if_neg hfont]
    push_neg at hfont
    rw [is_valid_iff span.text]
    constructor
    · rintro ⟨hsh, hfp⟩
      exact ⟨hfont, hsh, hfp⟩
    · rintro ⟨-, hsh, hfp⟩
      exact ⟨hsh, hfp⟩

/-- Witness for the amended claim C7: the span "B" with font 6 inside a
612 x 792 page is accepted. -/
theorem claim_C7_witness :
    span_accepted (extract_diagram_bounds 612 792)
      ⟨pyOfString "B", 300, 400, 310, 410, 6⟩ = true :=
  (claim_C7_amended 612 792 ⟨pyOfString "B", 300, 400, 310, 410, 6⟩
    (by decide)).mpr
    ⟨⟨by decide, by decide⟩, Or.inl ⟨66, by decide, by decide⟩, by decide⟩

/-! ### Claim C9: three-tier runway extraction -/

/-- Pairing an enumerated list against positional lookups in another
list is a positional zip with the dropped tail of that list. -/
theorem enum_filterMap_zipWith {α β γ : Type} (f : α → β → γ) (dims : List β) :
    ∀ (D : List α) (k : Nat),
      (List.enumFrom k D).filterMap (fun p => (dims.get? p.1).map (f p.2)) =
        List.zipWith f D (dims.drop k) := by
  intro D
  induction D with
  | nil => intro k; simp
  | cons d D ih =>
      intro k
      cases hk : dims.get? k with
      | none =>
          have hlen : dims.length ≤ k := List.get?_eq_none.mp hk
          have hnil : dims.drop k = [] := List.drop_eq_nil_of_le hlen
          have hnil2 : dims.drop (k + 1) = [] :=
            List.drop_eq_nil_of_le (Nat.le_trans hlen (Nat.le_succ k))
          rw [List.enumFrom_cons, List.filterMap_cons]
          dsimp only
          rw [hk, Option.map_none']
          dsimp only
          rw [ih (k + 1), hnil, hnil2]
          simp
      | some b =>
          have hlt : k < dims.length := by
            by_contra hge
            have hno := List.get?_eq_none.mpr (Nat.le_of_not_lt hge)
            rw [hk] at hno
            exact Option.noConfusion hno
          have hdrop : dims.drop k = dims.get ⟨k, hlt⟩ :: dims.drop (k + 1) :=
            List.drop_eq_get_cons hlt
          have hget : dims.get ⟨k, hlt⟩ = b := by
            obtain ⟨hx, hh⟩ := List.get?_eq_some.mp hk
            exact hh
          rw [List.enumFrom_cons, List.filterMap_cons]
          dsimp only
          rw [hk, Option.map_some']
          dsimp only
          rw [ih (k + 1), hdrop, hget]
          simp

/-- Collecting positional lookups over a contiguous index range is a
map over the corresponding slice of the list. -/
theorem range_filterMap_get {β γ : Type} (L : List β) (g : β → γ) :
    ∀ (m k : Nat),
      (List.range' k m).filterMap (fun i => (L.get? i).map g) =
        ((L.drop k).take m).map g := by
  intro m
  induction m with
  | zero => intro k; simp
  | succ m ih =>
      intro k
      cases hk : L.get? k with
      | none =>
          have hlen : L.length ≤ k := List.get?_eq_none.mp hk
          have hnil : L.drop k = [] := List.drop_eq_nil_of_le hlen
          have hnil2 : L.drop (k + 1) = [] :=
            List.drop_eq_nil_of_le (Nat.le_trans hlen (Nat.le_succ k))
          rw [List.range'_succ, List.filterMap_cons]
          rw [hk, Option.map_none']
          dsimp only
          rw [ih (k + 1), hnil, hnil2]
          simp
      | some b =>
          have hlt : k < L.length := by
            by_contra hge
            have hno := List.get?_eq_none.mpr (Nat.le_of_not_lt hge)
            rw [hk] at hno
            exact Option.noConfusion hno
          have hdrop : L.drop k = L.get ⟨k, hlt⟩ :: L.drop (k + 1) :=
            List.drop_eq_get_cons hlt
          have hget : L.get ⟨k, hlt⟩ = b := by
            obtain ⟨hx, hh⟩ := List.get?_eq_some.mp hk
            exact hh
          rw [List.range'_succ, List.filterMap_cons]
          rw [hk, Option.map_some']
          dsimp only
          rw [ih (k + 1), hdrop, hget]
          simp

/-- Dropping a prefix of an initial range leaves a contiguous range. -/
theorem range_drop (n k : Nat) : (List.range n).drop k = List.range' k (n - k) := by
  by_cases h : k ≤ n
  · have happ : List.range' 0 k ++ List.range' k (n - k) = List.range' 0 n := by
      have h1 := List.range'_append_1 0 k (n - k)
      rw [Nat.zero_add] at h1
      rw [h1, Nat.sub_add_cancel h]
    rw [List.range_eq_range', ← happ, List.drop_left' (List.length_range' 0 1 k)]
  · have hlen : (List.range n).length ≤ k := by
      rw [List.length_range]
      exact Nat.le_of_lt (Nat.lt_of_not_le h)
    rw [List.drop_eq_nil_of_le hlen,
      Nat.sub_eq_zero_of_le (Nat.le_of_lt (Nat.lt_of_not_le h))]
    rfl

/-- Method 2 is the positional zip of designators with large
dimensions, followed by Unknown records for the leftover dimensions. -/
theorem method2Runways_eq_zip (ft : PyStr)
    (dp : List ((Nat × Nat) × (Rat × Rat))) :
    method2Runways ft dp =
      List.zipWith pairedRecord (allRwyDesignators ft)
          (allLargeDimensions ft dp) ++
        ((allLargeDimensions ft dp).drop
            (allRwyDesignators ft).length).map unknownPairedRecord := by
  unfold method2Runways
  dsimp only
  have h1 := enum_filterMap_zipWith pairedRecord (allLargeDimensions ft dp)
    (allRwyDesignators ft) 0
  have h2 := range_drop (allLargeDimensions ft dp).length
    (allRwyDesignators ft).length
  have h3 := range_filterMap_get (allLargeDimensions ft dp) unknownPairedRecord
    ((allLargeDimensions ft dp).length - (allRwyDesignators ft).length)
    (allRwyDesignators ft).length
  rw [show (allRwyDesignators ft).enum =
      List.enumFrom 0 (allRwyDesignators ft) from rfl]
  rw [h1, List.drop_zero, h2, h3, ← List.length_drop, List.take_length]

/-- Method 3 projects, field by field, to the large-dimension list
with the constant Unknown designator. -/
theorem method3Runways_map_eq (ft : PyStr)
    (dp : List ((Nat × Nat) × (Rat × Rat))) :
    (method3Runways ft dp).map
        (fun r => (r.designator, r.length_ft, r.width_ft, r.x, r.y)) =
      (allLargeDimensions ft dp).map
        (fun t => (pyOfString "Unknown", t.1, t.2.1, t.2.2.1, t.2.2.2)) := by
  unfold method3Runways allLargeDimensions
  dsimp only
  rw [List.map_filterMap, List.map_filterMap]
  congr 1
  funext mt
  by_cases h : 2000 ≤ decVal (capGet mt 1)
  · rw [if_pos h, if_pos h]
    rfl
  · rw [if_neg h, if_neg h]
    rfl

/-- The page used to exercise the tier-2 branch of runway extraction:
its text defeats the combined designator-plus-dimension pattern but
contains an RWY designator list and a large dimension pair. -/
def pageC9 : RunwayPage := ⟨pyOfString "RWY 4-22 NOPE 2500 X 75", []⟩

/-- Claim C9: extract_runway_info tries its three tiers in order and
returns the records of the first tier yielding at least one record:
method 1 when it is nonempty, otherwise method 2 when that is
nonempty, otherwise method 3.  Method 2 zips the ordered designator
pairs found after RWY or RWYS markers with the ordered dimension
pairs of length at least 2000 positionally, turning each leftover
dimension beyond the designator count into a record with designator
Unknown; method 3 turns every dimension pair of length at least 2000
into a record with designator Unknown. -/
theorem claim_C9_runway_tiers (page : RunwayPage) :
    (method1Runways page.fullText (dimensionPositions page.lines) ≠ [] →
      (extract_runway_info page).1 =
        method1Runways page.fullText (dimensionPositions page.lines)) ∧
    (method1Runways page.fullText (dimensionPositions page.lines) = [] →
      method2Runways page.fullText (dimensionPositions page.lines) ≠ [] →
      (extract_runway_info page).1 =
        method2Runways page.fullText (dimensionPositions page.lines)) ∧
    (method1Runways page.fullText (dimensionPositions page.lines) = [] →
      method2Runways page.fullText (dimensionPositions page.lines) = [] →
      (extract_runway_info page).1 =
        method3Runways page.fullText (dimensionPositions page.lines)) ∧
    method2Runways page.fullText (dimensionPositions page.lines) =
      List.zipWith pairedRecord (allRwyDesignators page.fullText)
          (allLargeDimensions page.fullText (dimensionPositions page.lines)) ++
        ((allLargeDimensions page.fullText
              (dimensionPositions page.lines)).drop
            (allRwyDesignators page.fullText).length).map unknownPairedRecord ∧
    (method3Runways page.fullText (dimensionPositions page.lines)).map
        (fun r => (r.designator, r.length_ft, r.width_ft, r.x, r.y)) =
      (allLargeDimensions page.fullText (dimensionPositions page.lines)).map
        (fun t => (pyOfString "Unknown", t.1, t.2.1, t.2.2.1, t.2.2.2)) := by
  refine ⟨?_, ?_, ?_, method2Runways_eq_zip _ _, method3Runways_map_eq _ _⟩
  · intro h1
    have hb1 :
        (method1Runways page.fullText (dimensionPositions page.lines)).isEmpty
          = false := by
      rw [List.isEmpty_eq_false]
      exact h1
    unfold extract_runway_info
    dsimp only
    rw [hb1]
    simp [hb1]
  · intro h1 h2
    have hb2 :
        (method2Runways page.fullText (dimensionPositions page.lines)).isEmpty
          = false := by
      rw [List.isEmpty_eq_false]
      exact h2
    unfold extract_runway_info
    dsimp only
    rw [h1]
    simp [hb2]
  · intro h1 h2
    unfold extract_runway_info
    dsimp only
    rw [h1, h2]
    simp

/-- Witness for claim C9: on the tier-2 page, method 1 is empty,
method 2 is nonempty, and the extraction result is exactly the
method-2 record list. -/
theorem claim_C9_witness :
    method1Runways pageC9.fullText (dimensionPositions pageC9.lines) = [] ∧
    method2Runways pageC9.fullText (dimensionPositions pageC9.lines) ≠ [] ∧
    (extract_runway_info pageC9).1 =
      method2Runways pageC9.fullText (dimensionPositions pageC9.lines) :=
  ⟨by decide, by decide,
    (claim_C9_runway_tiers pageC9).2.1 (by decide) (by decide)⟩
